import Mathlib

/-!
# Optimistic-concurrency version tokens (`concurrency.go`)

A shallow embedding of the `concurrency` package: the `Version` token
(a `sql.NullString`), its storage and JSON conversions, and the two statement
hooks `VersionCreateClause.ModifyStatement` / `VersionUpdateClause.ModifyStatement`.

Conventions of the embedding:

* Go byte sequences (`string`, `[]byte`) are Lean `String`s, so only valid
  UTF-8 contents are represented.
* Go maps `map[string]T` are total functions `String → Option T`.
* `ksuid.New()` consumes entropy and the clock: the 20-byte identifier it
  returns is an explicit argument `k` of every function that generates a token.
* The parts of `database/sql`, `encoding/json`, `ksuid` and `gorm` that the
  package calls are embedded next to the function that calls them, each with a
  comment naming the library function it follows.
* What depends on the Go release in use and is not modelled - float and time
  formatting, and the receiver a failed `sql.NullString.Scan` leaves - is the
  parameter `GoRuntime`; the general theorems hold for every instance, the
  closed examples are stated at `sampleRuntime`.
-/

namespace Concurrency

/-! ## Values crossing the storage boundary -/

/-- Go's `string` type (the name `String` is also a field of `Version`). -/
abbrev GoString : Type := String

/-- A `time.Time`: the seconds and nanoseconds since the Unix epoch and the
offset, in seconds east of UTC, of its location. -/
structure Time where
  unixSec : Int
  nsec : Nat
  offset : Int
  deriving DecidableEq, Repr

/-- The dynamic values (`interface{}` / `driver.Value`) that can be handed to
`Version.Scan`, stored in a column, or put in an update map. A float is given
by its IEEE-754 bits; `other` stands for a value of any kind `convertAssign` has
no string conversion for (a struct, a map, a slice of a non-byte type, ...),
identified by its type name. -/
inductive DriverValue where
  | null
  | str (s : String)
  | bytes (b : String)
  | int (i : Int)
  | uint (n : Nat)
  | bool (b : Bool)
  | float32 (bits : Nat)
  | float64 (bits : Nat)
  | time (t : Time)
  | other (typeName : String)
  deriving DecidableEq, Repr

/-- Errors surfaced by the conversions. -/
inductive ConvError where
  | unsupportedScan (typeName : String)
  | syntaxError
  | unmarshalType (jsonKind : String)
  | phasePanic
  deriving DecidableEq, Repr

/-- The type `Version` (`type Version sql.NullString`): `Valid` says whether a
value is present, `String` is the value. -/
structure Version where
  String : String
  Valid : Bool
  deriving DecidableEq, Repr

/-- Token equality of the specification: both absent, or both present with
the same value. -/
def Version.Equal (a b : Version) : Prop :=
  (a.Valid = false ∧ b.Valid = false) ∨
    (a.Valid = true ∧ b.Valid = true ∧ a.String = b.String)

instance (a b : Version) : Decidable (Version.Equal a b) := by
  unfold Version.Equal; infer_instance

/-- What the embedding takes from the Go release in use, none of it part of this
repository: the number and time formatting of the standard library, and the
state `sql.NullString.Scan` leaves in its receiver when the conversion fails
(releases differ on the `Valid` flag there). -/
class GoRuntime where
  /-- The text `strconv.FormatFloat(f, 'g', -1, bitSize)` for the float with the given bits. -/
  FormatFloat : (bitSize : Nat) → (bits : Nat) → String
  /-- The text `t.Format(time.RFC3339Nano)`. -/
  FormatTime : Time → String
  /-- The receiver after a `Scan` whose conversion failed, given the receiver before. -/
  ScanFailed : Version → Version

/-! ## ksuid -/

/-- The base-62 alphabet of `ksuid` (`base62Characters`). -/
def base62Characters : List Char :=
  "0123456789ABCDEFGHIJKLMNOPQRSTUVWXYZabcdefghijklmnopqrstuvwxyz".data

/-- A KSUID is 20 bytes, read as a big-endian number below `2 ^ 160`. -/
abbrev KSUID := Nat

/-- The method `KSUID.String`: the 160-bit number in base 62, most significant digit
first, zero-padded to exactly 27 characters. -/
def KSUID.String (k : KSUID) : String :=
  String.mk ((List.range 27).reverse.map
    (fun i => base62Characters.getD (((k % 2 ^ 160) / 62 ^ i) % 62) '0'))

/-- The constructor `NewVersion`: a present token whose value is the text of a fresh KSUID. -/
def NewVersion (k : KSUID) : Version :=
  { Valid := true, String := KSUID.String k }

/-! ## Storage conversion -/

/-- The function `asString` of `database/sql` on the kinds `convertAssign` sends to it:
`strconv.FormatInt`, `FormatUint`, `FormatBool` and `FormatFloat`. -/
def asString [GoRuntime] : DriverValue → String
  | .str s => s
  | .bytes b => b
  | .int i => toString i
  | .uint n => toString n
  | .bool b => if b then "true" else "false"
  | .float32 bits => GoRuntime.FormatFloat 32 bits
  | .float64 bits => GoRuntime.FormatFloat 64 bits
  | .time t => GoRuntime.FormatTime t
  | .null => "<nil>"
  | .other t => t

/-- The function `convertAssign(dest *string, src)` of `database/sql` for a non-nil
`src`: the new content of `dest`, or the "unsupported Scan" error. -/
def convertAssign [GoRuntime] (src : DriverValue) : Except ConvError String :=
  match src with
  | .str s => .ok s
  | .bytes b => .ok b
  | .time t => .ok (GoRuntime.FormatTime t)
  | .bool b => .ok (asString (.bool b))
  | .int i => .ok (asString (.int i))
  | .uint n => .ok (asString (.uint n))
  | .float32 bits => .ok (asString (.float32 bits))
  | .float64 bits => .ok (asString (.float64 bits))
  | .null => .error (.unsupportedScan "<nil>")
  | .other t => .error (.unsupportedScan t)

/-- The method `(*Version).Scan`, that is `(*sql.NullString).Scan`: returns the error (if
any) and the receiver afterwards. A nil value clears the receiver; a value
that converts gives the present token with the converted text; when the
conversion fails the error is returned and the receiver is what the release
in use leaves there. -/
def Version.Scan [GoRuntime] (v : Version) (value : DriverValue) : Option ConvError × Version :=
  if value = .null then
    (none, { String := "", Valid := false })
  else
    match convertAssign value with
    | .ok s => (none, { String := s, Valid := true })
    | .error e => (some e, GoRuntime.ScanFailed v)

/-- The method `Version.Value`: nil for an absent token, the raw string otherwise;
the error is always nil. -/
def Version.Value (v : Version) : DriverValue × Option ConvError :=
  if !v.Valid then (.null, none) else (.str v.String, none)

/-! ## encoding/json: the validating scanner (`scanner.go`) -/

/-- The entries of the scanner's `parseState` stack. -/
inductive ParseState where
  | parseObjectKey
  | parseObjectValue
  | parseArrayValue
  deriving DecidableEq, Repr

/-- The scanner's op codes. -/
inductive ScanCode where
  | scanContinue
  | scanBeginLiteral
  | scanBeginObject
  | scanObjectKey
  | scanObjectValue
  | scanEndObject
  | scanBeginArray
  | scanArrayValue
  | scanEndArray
  | scanSkipSpace
  | scanEnd
  | scanError
  deriving DecidableEq, Repr

/-- The scanner's `step` field: which state function handles the next byte. -/
inductive ScanStep where
  | stateBeginValueOrEmpty
  | stateBeginValue
  | stateBeginStringOrEmpty
  | stateBeginString
  | stateEndValue
  | stateEndTop
  | stateInString
  | stateInStringEsc
  | stateInStringEscU
  | stateInStringEscU1
  | stateInStringEscU12
  | stateInStringEscU123
  | stateNeg
  | state1
  | state0
  | stateDot
  | stateDot0
  | stateE
  | stateESign
  | stateE0
  | stateT
  | stateTr
  | stateTru
  | stateF
  | stateFa
  | stateFal
  | stateFals
  | stateN
  | stateNu
  | stateNul
  | stateError
  deriving DecidableEq, Repr

/-- The struct `scanner`. `parseState` is kept with the innermost entry first;
`err` records whether `s.err` is non-nil. -/
structure Scanner where
  step : ScanStep
  endTop : Bool
  parseState : List ParseState
  err : Bool
  deriving DecidableEq, Repr

/-- The constant `maxNestingDepth`. -/
def maxNestingDepth : Nat := 10000

/-- The function `isSpace`. -/
def isSpace (c : Char) : Bool :=
  c = ' ' || c = '\t' || c = '\r' || c = '\n'

/-- The test `'0' <= c && c <= '9'`. -/
def isDigit09 (c : Char) : Bool := '0'.toNat ≤ c.toNat && c.toNat ≤ '9'.toNat

/-- The test `'1' <= c && c <= '9'`. -/
def isDigit19 (c : Char) : Bool := '1'.toNat ≤ c.toNat && c.toNat ≤ '9'.toNat

/-- The hexadecimal-digit test of `stateInStringEscU` and its successors. -/
def isHex (c : Char) : Bool :=
  isDigit09 c || ('a'.toNat ≤ c.toNat && c.toNat ≤ 'f'.toNat) ||
    ('A'.toNat ≤ c.toNat && c.toNat ≤ 'F'.toNat)

/-- The method `scanner.error`: records the error and parks the scanner in `stateError`. -/
def Scanner.error (s : Scanner) : ScanCode × Scanner :=
  (.scanError, { s with step := .stateError, err := true })

/-- The method `scanner.pushParseState`. -/
def Scanner.pushParseState (s : Scanner) (newParseState : ParseState)
    (successState : ScanCode) : ScanCode × Scanner :=
  let s1 := { s with parseState := newParseState :: s.parseState }
  if s1.parseState.length ≤ maxNestingDepth then (successState, s1) else s1.error

/-- The method `scanner.popParseState`. -/
def Scanner.popParseState (s : Scanner) : Scanner :=
  let ps := s.parseState.tail
  if ps.length = 0 then
    { s with parseState := ps, step := .stateEndTop, endTop := true }
  else
    { s with parseState := ps, step := .stateEndValue }

/-- The state function `stateEndTop`: a non-space byte after the top-level value records
an error, which the next call (or `eof`) reports. -/
def stateEndTop (s : Scanner) (c : Char) : ScanCode × Scanner :=
  if !isSpace c then (.scanEnd, s.error.2) else (.scanEnd, s)

/-- The state function `stateEndValue`. -/
def stateEndValue (s : Scanner) (c : Char) : ScanCode × Scanner :=
  match s.parseState with
  | [] => stateEndTop { s with step := .stateEndTop, endTop := true } c
  | ps :: rest =>
    if isSpace c then (.scanSkipSpace, { s with step := .stateEndValue })
    else
      match ps with
      | .parseObjectKey =>
        if c = ':' then
          (.scanObjectKey,
            { s with parseState := .parseObjectValue :: rest, step := .stateBeginValue })
        else s.error
      | .parseObjectValue =>
        if c = ',' then
          (.scanObjectValue,
            { s with parseState := .parseObjectKey :: rest, step := .stateBeginString })
        else if c = '}' then (.scanEndObject, s.popParseState)
        else s.error
      | .parseArrayValue =>
        if c = ',' then (.scanArrayValue, { s with step := .stateBeginValue })
        else if c = ']' then (.scanEndArray, s.popParseState)
        else s.error

/-- The state function `stateBeginValue`. -/
def stateBeginValue (s : Scanner) (c : Char) : ScanCode × Scanner :=
  if isSpace c then (.scanSkipSpace, s)
  else if c = '{' then
    { s with step := .stateBeginStringOrEmpty }.pushParseState .parseObjectKey .scanBeginObject
  else if c = '[' then
    { s with step := .stateBeginValueOrEmpty }.pushParseState .parseArrayValue .scanBeginArray
  else if c = '"' then (.scanBeginLiteral, { s with step := .stateInString })
  else if c = '-' then (.scanBeginLiteral, { s with step := .stateNeg })
  else if c = '0' then (.scanBeginLiteral, { s with step := .state0 })
  else if c = 't' then (.scanBeginLiteral, { s with step := .stateT })
  else if c = 'f' then (.scanBeginLiteral, { s with step := .stateF })
  else if c = 'n' then (.scanBeginLiteral, { s with step := .stateN })
  else if isDigit19 c then (.scanBeginLiteral, { s with step := .state1 })
  else s.error

/-- The state function `stateBeginValueOrEmpty`. -/
def stateBeginValueOrEmpty (s : Scanner) (c : Char) : ScanCode × Scanner :=
  if isSpace c then (.scanSkipSpace, s)
  else if c = ']' then stateEndValue s c
  else stateBeginValue s c

/-- The state function `stateBeginString`. -/
def stateBeginString (s : Scanner) (c : Char) : ScanCode × Scanner :=
  if isSpace c then (.scanSkipSpace, s)
  else if c = '"' then (.scanBeginLiteral, { s with step := .stateInString })
  else s.error

/-- The state function `stateBeginStringOrEmpty`. -/
def stateBeginStringOrEmpty (s : Scanner) (c : Char) : ScanCode × Scanner :=
  if isSpace c then (.scanSkipSpace, s)
  else if c = '}' then
    stateEndValue { s with parseState := .parseObjectValue :: s.parseState.tail } c
  else stateBeginString s c

/-- The state function `stateInString`. -/
def stateInString (s : Scanner) (c : Char) : ScanCode × Scanner :=
  if c = '"' then (.scanContinue, { s with step := .stateEndValue })
  else if c = '\\' then (.scanContinue, { s with step := .stateInStringEsc })
  else if c.toNat < 0x20 then s.error
  else (.scanContinue, s)

/-- The state function `stateInStringEsc`. -/
def stateInStringEsc (s : Scanner) (c : Char) : ScanCode × Scanner :=
  if c = 'b' || c = 'f' || c = 'n' || c = 'r' || c = 't' || c = '\\' || c = '/' || c = '"' then
    (.scanContinue, { s with step := .stateInString })
  else if c = 'u' then (.scanContinue, { s with step := .stateInStringEscU })
  else s.error

/-- The state functions `stateInStringEscU`, `...U1`, `...U12`, `...U123`: one
hexadecimal digit moves on to `next`. -/
def stateInStringEscHex (next : ScanStep) (s : Scanner) (c : Char) : ScanCode × Scanner :=
  if isHex c then (.scanContinue, { s with step := next }) else s.error

/-- The state function `state0`. -/
def state0 (s : Scanner) (c : Char) : ScanCode × Scanner :=
  if c = '.' then (.scanContinue, { s with step := .stateDot })
  else if c = 'e' || c = 'E' then (.scanContinue, { s with step := .stateE })
  else stateEndValue s c

/-- The state function `state1`. -/
def state1 (s : Scanner) (c : Char) : ScanCode × Scanner :=
  if isDigit09 c then (.scanContinue, { s with step := .state1 }) else state0 s c

/-- The state function `stateNeg`. -/
def stateNeg (s : Scanner) (c : Char) : ScanCode × Scanner :=
  if c = '0' then (.scanContinue, { s with step := .state0 })
  else if isDigit19 c then (.scanContinue, { s with step := .state1 })
  else s.error

/-- The state function `stateDot`. -/
def stateDot (s : Scanner) (c : Char) : ScanCode × Scanner :=
  if isDigit09 c then (.scanContinue, { s with step := .stateDot0 }) else s.error

/-- The state function `stateDot0`. -/
def stateDot0 (s : Scanner) (c : Char) : ScanCode × Scanner :=
  if isDigit09 c then (.scanContinue, s)
  else if c = 'e' || c = 'E' then (.scanContinue, { s with step := .stateE })
  else stateEndValue s c

/-- The state function `stateESign`. -/
def stateESign (s : Scanner) (c : Char) : ScanCode × Scanner :=
  if isDigit09 c then (.scanContinue, { s with step := .stateE0 }) else s.error

/-- The state function `stateE`. -/
def stateE (s : Scanner) (c : Char) : ScanCode × Scanner :=
  if c = '+' || c = '-' then (.scanContinue, { s with step := .stateESign })
  else stateESign s c

/-- The state function `stateE0`. -/
def stateE0 (s : Scanner) (c : Char) : ScanCode × Scanner :=
  if isDigit09 c then (.scanContinue, s) else stateEndValue s c

/-- The state functions `stateT` ... `stateNul`: inside the literals `true`, `false`, `null` the
next byte must be `want`. -/
def stateLit (want : Char) (next : ScanStep) (s : Scanner) (c : Char) : ScanCode × Scanner :=
  if c = want then (.scanContinue, { s with step := next }) else s.error

/-- The call `s.step(s, c)`: dispatch on the current state function. -/
def Scanner.run (s : Scanner) (c : Char) : ScanCode × Scanner :=
  match s.step with
  | .stateBeginValueOrEmpty => stateBeginValueOrEmpty s c
  | .stateBeginValue => stateBeginValue s c
  | .stateBeginStringOrEmpty => stateBeginStringOrEmpty s c
  | .stateBeginString => stateBeginString s c
  | .stateEndValue => stateEndValue s c
  | .stateEndTop => stateEndTop s c
  | .stateInString => stateInString s c
  | .stateInStringEsc => stateInStringEsc s c
  | .stateInStringEscU => stateInStringEscHex .stateInStringEscU1 s c
  | .stateInStringEscU1 => stateInStringEscHex .stateInStringEscU12 s c
  | .stateInStringEscU12 => stateInStringEscHex .stateInStringEscU123 s c
  | .stateInStringEscU123 => stateInStringEscHex .stateInString s c
  | .stateNeg => stateNeg s c
  | .state1 => state1 s c
  | .state0 => state0 s c
  | .stateDot => stateDot s c
  | .stateDot0 => stateDot0 s c
  | .stateE => stateE s c
  | .stateESign => stateESign s c
  | .stateE0 => stateE0 s c
  | .stateT => stateLit 'r' .stateTr s c
  | .stateTr => stateLit 'u' .stateTru s c
  | .stateTru => stateLit 'e' .stateEndValue s c
  | .stateF => stateLit 'a' .stateFa s c
  | .stateFa => stateLit 'l' .stateFal s c
  | .stateFal => stateLit 's' .stateFals s c
  | .stateFals => stateLit 'e' .stateEndValue s c
  | .stateN => stateLit 'u' .stateNu s c
  | .stateNu => stateLit 'l' .stateNul s c
  | .stateNul => stateLit 'l' .stateEndValue s c
  | .stateError => (.scanError, s)

/-- The method `scanner.reset`. -/
def Scanner.reset : Scanner :=
  { step := .stateBeginValue, endTop := false, parseState := [], err := false }

/-- The method `scanner.eof`: `true` when the input ended in a complete top-level value
(`scanEnd`), `false` for `scanError`. -/
def Scanner.eof (s : Scanner) : Bool :=
  if s.err then false
  else if s.endTop then true
  else (s.run ' ').2.endTop

/-- The loop of `checkValid`: feed the bytes one by one, stopping at the first
`scanError`; `none` is that failure. -/
def scanAll (s : Scanner) : List Char → Option Scanner
  | [] => some s
  | c :: cs =>
    let r := s.run c
    if r.1 = .scanError then none else scanAll r.2 cs

/-- The function `checkValid`: whether `data` is one well-formed JSON value. -/
def checkValid (data : List Char) : Bool :=
  match scanAll Scanner.reset data with
  | none => false
  | some s => s.eof

/-! ## encoding/json: decoding into a `*string` (`decode.go`) -/

/-- The value of one hexadecimal digit, as computed in `getu4`. -/
def hexVal (c : Char) : Option Nat :=
  if isDigit09 c then some (c.toNat - '0'.toNat)
  else if 'a'.toNat ≤ c.toNat && c.toNat ≤ 'f'.toNat then some (c.toNat - 'a'.toNat + 10)
  else if 'A'.toNat ≤ c.toNat && c.toNat ≤ 'F'.toNat then some (c.toNat - 'A'.toNat + 10)
  else none

/-- The function `getu4`: the code unit of a leading `\uXXXX`, `none` for Go's `-1`. -/
def getu4 (s : List Char) : Option Nat :=
  match s with
  | c0 :: c1 :: h1 :: h2 :: h3 :: h4 :: _ =>
    if c0 = '\\' && c1 = 'u' then
      match hexVal h1, hexVal h2, hexVal h3, hexVal h4 with
      | some a, some b, some c, some d => some (((a * 16 + b) * 16 + c) * 16 + d)
      | _, _, _, _ => none
    else none
  | _ => none

/-- The rune `unicode.ReplacementChar`. -/
def replacementChar : Nat := 0xFFFD

/-- The function `utf16.IsSurrogate`. -/
def isSurrogate (r : Nat) : Bool := 0xd800 ≤ r && r < 0xe000

/-- The function `utf16.DecodeRune`, the second code unit being `none` when `getu4` returned `-1`. -/
def decodeRune (r1 : Nat) (r2 : Option Nat) : Nat :=
  match r2 with
  | some r2 =>
    if 0xd800 ≤ r1 && r1 < 0xdc00 && 0xdc00 ≤ r2 && r2 < 0xe000 then
      (r1 - 0xd800) * 1024 + (r2 - 0xdc00) + 0x10000
    else replacementChar
  | none => replacementChar

/-- One iteration of the main loop of `unquoteBytes`, at the byte `c` followed by
`rest`; `next` is the loop continuing on what is left. -/
def unquoteStep (next : List Char → Option (List Char)) (c : Char) (rest : List Char) :
    Option (List Char) :=
  if c = '\\' then
    match rest with
    | [] => none
    | e :: rest1 =>
      if e = '"' || e = '\\' || e = '/' || e = '\'' then (next rest1).map (e :: ·)
      else if e = 'b' then (next rest1).map (Char.ofNat 8 :: ·)
      else if e = 'f' then (next rest1).map (Char.ofNat 12 :: ·)
      else if e = 'n' then (next rest1).map ('\n' :: ·)
      else if e = 'r' then (next rest1).map ('\r' :: ·)
      else if e = 't' then (next rest1).map ('\t' :: ·)
      else if e = 'u' then
        match getu4 (c :: rest) with
        | none => none
        | some rr =>
          let after := rest1.drop 4
          if isSurrogate rr then
            let dec := decodeRune rr (getu4 after)
            if dec ≠ replacementChar then (next (after.drop 6)).map (Char.ofNat dec :: ·)
            else (next after).map (Char.ofNat replacementChar :: ·)
          else (next after).map (Char.ofNat rr :: ·)
      else none
  else if c = '"' || c.toNat < 0x20 then none
  else (next rest).map (c :: ·)

/-- The main loop of `unquoteBytes` over the bytes between the two quotes; `none` is
`ok = false`. Every iteration consumes at least one byte, so `fuel = len(s)` suffices. -/
def unquoteLoop : Nat → List Char → Option (List Char)
  | _, [] => some []
  | 0, _ :: _ => none
  | fuel + 1, c :: rest => unquoteStep (unquoteLoop fuel) c rest

/-- The function `unquoteBytes`, applied to the content of a literal between its quotes. -/
def unquoteBytes (s : List Char) : Option (List Char) := unquoteLoop s.length s

/-- The string case of `decodeState.rescanLiteral`, started after the opening quote:
the bytes up to the closing quote, a backslash always taking the next byte with it. -/
def rescanString : List Char → List Char
  | [] => []
  | [c] => if c = '"' then [] else [c]
  | c :: e :: rest =>
    if c = '\\' then c :: e :: rescanString rest
    else if c = '"' then []
    else c :: rescanString (e :: rest)

/-- The call `json.Unmarshal(data, &dest)` for a `dest` of type `string`: the error and the
content of `dest` afterwards. `checkValid` rejects malformed input before
anything is stored; then the first non-space byte selects `array`, `object` or
`literalStore`, where only a string literal is stored, `null` is ignored for a
string destination and every other kind is an `UnmarshalTypeError`.
`phasePanic` stands for the panic of `literalStore` when `unquoteBytes` fails. -/
def jsonUnmarshalString (data : List Char) (dest : String) : Option ConvError × String :=
  if !checkValid data then (some .syntaxError, dest)
  else
    match data.dropWhile isSpace with
    | [] => (some .syntaxError, dest)
    | c :: rest =>
      if c = '[' then (some (.unmarshalType "array"), dest)
      else if c = '{' then (some (.unmarshalType "object"), dest)
      else if c = 'n' then (none, dest)
      else if c = 't' || c = 'f' then (some (.unmarshalType "bool"), dest)
      else if c = '"' then
        match unquoteBytes (rescanString rest) with
        | some t => (none, String.mk t)
        | none => (some .phasePanic, dest)
      else (some (.unmarshalType "number"), dest)

/-- The method `(*Version).UnmarshalJSON`. -/
def Version.UnmarshalJSON (v : Version) (bytes : GoString) : Option ConvError × Version :=
  if bytes = "null" then
    (none, { v with Valid := false })
  else
    let r := jsonUnmarshalString bytes.data v.String
    if r.1 = none then (r.1, { String := r.2, Valid := true })
    else (r.1, { v with String := r.2 })

/-! ## JSON text as RFC 8259 describes it

These definitions are not taken from the decoder: they state what a string
literal and its value are, for the decoder to be compared with. -/

/-- The white space of JSON text. -/
def specWhitespace : List Char := [' ', '\t', '\n', '\r']

/-- The two-character escapes of a JSON string and the characters they stand for. -/
def specEscapes : List (Char × Char) :=
  [('"', '"'), ('\\', '\\'), ('/', '/'), ('b', Char.ofNat 8), ('f', Char.ofNat 12),
    ('n', '\n'), ('r', '\r'), ('t', '\t')]

/-- The hexadecimal digits and their values. -/
def specHexDigits : List (Char × Nat) :=
  [('0', 0), ('1', 1), ('2', 2), ('3', 3), ('4', 4), ('5', 5), ('6', 6), ('7', 7), ('8', 8),
    ('9', 9), ('a', 10), ('b', 11), ('c', 12), ('d', 13), ('e', 14), ('f', 15), ('A', 10),
    ('B', 11), ('C', 12), ('D', 13), ('E', 14), ('F', 15)]

/-- What a string literal is made of: characters, written plainly or by a
two-character escape, and UTF-16 code units written `\uXXXX`. -/
inductive StringItem where
  | char (c : Char)
  | unit (n : Nat)
  deriving DecidableEq, Repr

/-- The content of a string literal, between its quotes, and the items it
spells: an unescaped character is any character but the quote, the backslash
and the control characters below U+0020. -/
inductive SpecContent : List Char → List StringItem → Prop where
  | nil : SpecContent [] []
  | plain (c : Char) (t : List Char) (its : List StringItem) : c ≠ '"' → c ≠ '\\' →
      0x20 ≤ c.toNat → SpecContent t its → SpecContent (c :: t) (.char c :: its)
  | esc (e c : Char) (t : List Char) (its : List StringItem) :
      specEscapes.lookup e = some c → SpecContent t its →
      SpecContent ('\\' :: e :: t) (.char c :: its)
  | uni (h1 h2 h3 h4 : Char) (a b c d : Nat) (t : List Char) (its : List StringItem) :
      specHexDigits.lookup h1 = some a → specHexDigits.lookup h2 = some b →
      specHexDigits.lookup h3 = some c → specHexDigits.lookup h4 = some d →
      SpecContent t its →
      SpecContent ('\\' :: 'u' :: h1 :: h2 :: h3 :: h4 :: t)
        (.unit (a * 4096 + b * 256 + c * 16 + d) :: its)

/-- A UTF-16 high surrogate. -/
def specIsHigh (n : Nat) : Bool := 0xD800 ≤ n && n ≤ 0xDBFF

/-- A UTF-16 low surrogate. -/
def specIsLow (n : Nat) : Bool := 0xDC00 ≤ n && n ≤ 0xDFFF

/-- The character of a code unit that is not part of a surrogate pair: itself,
or U+FFFD for a surrogate left alone, as the documentation of `encoding/json`
says of invalid UTF-16. -/
def specSingle (n : Nat) : Char :=
  if specIsHigh n || specIsLow n then Char.ofNat 0xFFFD else Char.ofNat n

/-- The string the items spell: a high surrogate directly followed by a low
surrogate is the one character of the pair; every other item is one character. -/
def specDecodeItems : List StringItem → List Char
  | [] => []
  | .char c :: r => c :: specDecodeItems r
  | [.unit a] => [specSingle a]
  | .unit a :: .char c :: r => specSingle a :: c :: specDecodeItems r
  | .unit a :: .unit b :: r =>
    if specIsHigh a && specIsLow b then
      Char.ofNat (0x10000 + (a - 0xD800) * 0x400 + (b - 0xDC00)) :: specDecodeItems r
    else specSingle a :: specDecodeItems (.unit b :: r)

/-- The input is a JSON string literal, white space around it allowed, and
`value` is the string it denotes. -/
def SpecStringLiteral (data : List Char) (value : List Char) : Prop :=
  ∃ (ws body : List Char) (its : List StringItem) (ws' : List Char),
    data = ws ++ ('"' :: (body ++ ('"' :: ws'))) ∧ (∀ c ∈ ws, c ∈ specWhitespace) ∧
      (∀ c ∈ ws', c ∈ specWhitespace) ∧ SpecContent body its ∧ value = specDecodeItems its

/-- The input is the JSON value `null` with white space before or after it, so
not the bare text `null`. -/
def SpecPaddedNull (data : List Char) : Prop :=
  ∃ ws ws' : List Char, data = ws ++ (['n', 'u', 'l', 'l'] ++ ws') ∧
    (∀ c ∈ ws, c ∈ specWhitespace) ∧ (∀ c ∈ ws', c ∈ specWhitespace) ∧ (ws ≠ [] ∨ ws' ≠ [])

/-! ## encoding/json: encoding (`encode.go`, Go 1.22 and later) -/

/-- The digits `hex` of `encode.go`. -/
def hexDigits : List Char := "0123456789abcdef".data

/-- One step of `appendString` with `escapeHTML = true`: how a character is written. -/
def encodeChar (c : Char) : List Char :=
  if c.toNat < 0x80 then
    if 0x20 ≤ c.toNat && c ≠ '"' && c ≠ '&' && c ≠ '<' && c ≠ '>' && c ≠ '\\' then [c]
    else if c = '\\' || c = '"' then ['\\', c]
    else if c.toNat = 8 then ['\\', 'b']
    else if c.toNat = 12 then ['\\', 'f']
    else if c = '\n' then ['\\', 'n']
    else if c = '\r' then ['\\', 'r']
    else if c = '\t' then ['\\', 't']
    else ['\\', 'u', '0', '0', hexDigits.getD (c.toNat / 16) '0', hexDigits.getD (c.toNat % 16) '0']
  else if c.toNat = 0x2028 || c.toNat = 0x2029 then
    ['\\', 'u', '2', '0', '2', hexDigits.getD (c.toNat % 16) '0']
  else [c]

/-- The call `json.Marshal(s)` for a Go string: the quoted, escaped literal; no error. -/
def jsonMarshalString (s : String) : String :=
  String.mk ('"' :: (s.data.flatMap encodeChar ++ ['"']))

/-- The method `(*Version).MarshalJSON`: the bytes and the (always nil) error. -/
def Version.MarshalJSON (v : Version) : GoString × Option ConvError :=
  if v.Valid then (jsonMarshalString v.String, none) else ("null", none)

/-! ## gorm: clauses, records and statements

The hooks receive a `*gorm.Statement`. The embedding keeps the fields they
read or write: the SQL buffer, the clause map, the destination value, the
model value and the accumulated errors. The model is one struct value
(`stmt.ReflectValue` of kind `Struct`, addressable); the destination is either
a `map[string]interface{}` (as in `Model(&e).Update("name", x)`) or the pointer
to the model itself (as in `Create(&e)` or `Save(&e)`). -/

/-- The marker `clause.CurrentTable`. -/
def CurrentTable : String := "~~~ct~~~"

/-- The struct `clause.Column` (`Table` and `Name`; the empty `Table` is "unqualified"). -/
structure Column where
  Table : String
  Name : String
  deriving DecidableEq, Repr

/-- The interface `clause.Expression`, restricted to `clause.Eq{Column, Value}`, the one this
package builds. -/
inductive Expression where
  | Eq (column : Column) (value : DriverValue)
  deriving DecidableEq, Repr

/-- The struct `clause.Assignment`. -/
structure Assignment where
  Column : Column
  Value : DriverValue
  deriving DecidableEq, Repr

/-- The `Expression` of a `clause.Clause`: a `clause.Where` or a `clause.Set`. -/
inductive ClauseBody where
  | Where (Exprs : List Expression)
  | Set (assignments : List Assignment)
  deriving DecidableEq, Repr

/-- The struct `clause.Clause` (`Name` and `Expression`); `clause.Clause{}` is `Clause.zero`. -/
structure Clause where
  Name : String
  Expression : Option ClauseBody
  deriving DecidableEq, Repr

/-- The zero value `clause.Clause{}`. -/
def Clause.zero : Clause := { Name := "", Expression := none }

/-- A Go map with string keys. -/
abbrev GoMap (α : Type) : Type := String → Option α

/-- The assignment `m[k] = v`. -/
def GoMap.set {α : Type} (m : GoMap α) (k : String) (v : α) : GoMap α :=
  fun x => if x = k then some v else m x

/-- The empty map. -/
def GoMap.empty {α : Type} : GoMap α := fun _ => none

/-- A field of the model struct: of type `Version`, a primary-key column, or an
ordinary column holding a plain value. -/
inductive FieldValue where
  | token (v : Version)
  | primary (d : DriverValue)
  | plain (d : DriverValue)
  deriving DecidableEq, Repr

/-- The method `reflect.Value.IsZero` on the plain values (Go 1.22 and later, where a
negative floating-point zero is zero); the zero `time.Time{}` is the first
instant of year 1, UTC. -/
def DriverValue.isZero : DriverValue → Bool
  | .null => true
  | .str s => s = ""
  | .bytes _ => false
  | .int i => i = 0
  | .uint n => n = 0
  | .bool b => !b
  | .float32 bits => bits % 2 ^ 31 = 0
  | .float64 bits => bits % 2 ^ 63 = 0
  | .time t => t.unixSec = -62135596800 && t.nsec = 0 && t.offset = 0
  | .other _ => false

/-- The method `reflect.Value.IsZero` on a field: a `Version` is zero when it equals `Version{}`. -/
def FieldValue.isZero : FieldValue → Bool
  | .token v => v.String = "" && !v.Valid
  | .primary d => d.isZero
  | .plain d => d.isZero

/-- The value the driver binds for a field: a `Version` goes through its `Value` method. -/
def FieldValue.toDriver : FieldValue → DriverValue
  | .token v => v.Value.1
  | .primary d => d
  | .plain d => d

/-- The setter `schema.Field.Set` with a plain value: a `Version` field implements
`sql.Scanner`, so the value is scanned into it; any other field stores it. -/
def FieldValue.Set [GoRuntime] (f : FieldValue) (value : DriverValue) :
    Option ConvError × FieldValue :=
  match f with
  | .token t => ((t.Scan value).1, .token (t.Scan value).2)
  | .primary _ => (none, .primary value)
  | .plain _ => (none, .plain value)

/-- The struct `schema.Field`: the hooks use its column name only. -/
structure Field where
  DBName : String
  deriving DecidableEq, Repr

/-- The errors `Statement.AddError` can collect here. -/
inductive GormError where
  | ErrInvalidField
  | conversion (e : ConvError)
  deriving DecidableEq, Repr

/-- The field `Statement.Dest`. -/
inductive Dest where
  | map (m : GoMap DriverValue)
  | model

/-- The struct `gorm.Statement`. -/
structure Statement where
  SQL : String
  Clauses : GoMap Clause
  Dest : Dest
  ReflectValue : GoMap FieldValue
  Error : List GormError

/-- The call `stmt.SQL.Len()`. -/
def Statement.SQLLen (stmt : Statement) : Nat := stmt.SQL.utf8ByteSize

/-- The method `Statement.AddError` applied to the result of a setter. -/
def Statement.AddError (stmt : Statement) (e : Option ConvError) : Statement :=
  match e with
  | none => stmt
  | some e => { stmt with Error := stmt.Error ++ [.conversion e] }

/-- The method `Statement.AddClause` for a `clause.Where` or `clause.Set` (neither is a
`StatementModifier`): the clause stored under the name is merged with the new
one by `MergeClause` - `Where` appends its expressions to an existing `Where`,
`Set` replaces the expression. -/
def Statement.AddClause (stmt : Statement) (v : ClauseBody) : Statement :=
  match v with
  | .Where exprs =>
    let c := (stmt.Clauses "WHERE").getD Clause.zero
    let merged :=
      match c.Expression with
      | some (.Where w) => ClauseBody.Where (w ++ exprs)
      | _ => ClauseBody.Where exprs
    { stmt with Clauses := stmt.Clauses.set "WHERE" { Name := "WHERE", Expression := some merged } }
  | .Set as =>
    { stmt with Clauses := stmt.Clauses.set "SET" { Name := "SET", Expression := some (.Set as) } }

/-- The method `Statement.SetColumn(name, value, true)`: a map destination gets the entry;
otherwise the field is looked up in the schema and set on the model value
(`ErrInvalidField` when there is no such field). -/
def Statement.SetColumn [GoRuntime] (stmt : Statement) (name : String) (value : DriverValue) : Statement :=
  match stmt.Dest with
  | .map m => { stmt with Dest := .map (m.set name value) }
  | .model =>
    match stmt.ReflectValue name with
    | some f =>
      { stmt with ReflectValue := stmt.ReflectValue.set name (f.Set value).2 }.AddError
        (f.Set value).1
    | none => { stmt with Error := stmt.Error ++ [.ErrInvalidField] }

/-- The call `field.ValueOf(ctx, stmt.ReflectValue)`: the field's value and whether it is zero. -/
def Field.ValueOf (field : Field) (rv : GoMap FieldValue) : Option FieldValue × Bool :=
  match rv field.DBName with
  | some f => (some f, f.isZero)
  | none => (none, true)

/-! ## The hooks of `concurrency.go` -/

/-- The struct `VersionCreateClause`. -/
structure VersionCreateClause where
  Field : Field

/-- The struct `VersionUpdateClause`. -/
structure VersionUpdateClause where
  Field : Field

/-- The method `VersionCreateClause.ModifyStatement`; `k` is the KSUID drawn by `NewVersion`. -/
def VersionCreateClause.ModifyStatement [GoRuntime] (v : VersionCreateClause) (stmt : Statement)
    (k : KSUID) : Statement :=
  if stmt.SQLLen = 0 then
    let nv := NewVersion k
    let stmt1 := stmt.AddClause
      (.Set [{ Column := { Table := "", Name := v.Field.DBName }, Value := .str nv.String }])
    stmt1.SetColumn v.Field.DBName (.str nv.String)
  else stmt

/-- The method `VersionUpdateClause.ModifyStatement`; `k` is the KSUID drawn by `NewVersion`.
The type assertion `cv.(Version)` succeeds exactly on a `token` field. -/
def VersionUpdateClause.ModifyStatement [GoRuntime] (v : VersionUpdateClause) (stmt : Statement)
    (k : KSUID) : Statement :=
  if stmt.SQLLen = 0 then
    let stmt2 :=
      if (stmt.Clauses "concurrency_query").isNone then
        let stmt1 :=
          match v.Field.ValueOf stmt.ReflectValue with
          | (some (.token cvv), false) =>
            if cvv.Valid then
              stmt.AddClause (.Where
                [.Eq { Table := CurrentTable, Name := v.Field.DBName } (.str cvv.String)])
            else stmt
          | _ => stmt
        { stmt1 with Clauses := stmt1.Clauses.set "concurrency_query" Clause.zero }
      else stmt
    let nv := NewVersion k
    stmt2.SetColumn v.Field.DBName (.str nv.String)
  else stmt

/-! ## The surrounding pipeline: gorm's callbacks and the store

The store is one row, updated by one atomic conditional statement: the
assignments are applied when every `WHERE` expression holds on the row, and the
number of affected rows is reported. Selecting the row by primary key and
rendering the SQL text are not part of the embedding. -/

/-- A stored row: the value of every column (`null` for SQL NULL). -/
abbrev Row : Type := String → DriverValue

/-- The expressions of the statement's `WHERE` clause. -/
def Statement.whereExprs (stmt : Statement) : List Expression :=
  match stmt.Clauses "WHERE" with
  | some c =>
    match c.Expression with
    | some (.Where w) => w
    | _ => []
  | none => []

/-- Whether the row satisfies an expression: `clause.Eq` renders `IS NULL` for a
nil value and `= ?` otherwise, and SQL equality never holds on NULL. -/
def Expression.holds (row : Row) : Expression → Bool
  | .Eq col v => if v = .null then row col.Name = .null else row col.Name = v

/-- The assignments of a `clause.Set`, as a map from column to value. -/
def assignmentsToMap : List Assignment → GoMap DriverValue
  | [] => GoMap.empty
  | a :: as => fun c => if c = a.Column.Name ∧ (assignmentsToMap as c).isNone then some a.Value
      else assignmentsToMap as c

/-- The closure `assignValue` of `ConvertToAssignments`: an updated column that is a field
of the model is also set on the model value. -/
def assignValue [GoRuntime] (field : Option FieldValue) (value : Option DriverValue) : Option FieldValue :=
  match field, value with
  | some f, some val => some (f.Set val).2
  | r, _ => r

/-- The function `ConvertToAssignments` of gorm's update callback, without `Select`/`Omit`.
A map destination assigns every entry and copies it into the model field of
the same name; a struct destination, being the model itself, assigns every
non-zero field that is not a primary key. The `WHERE` expression gorm adds for
a non-zero primary key is the selection of the store's one row and is not
added here. The result is the assignments and the statement afterwards. -/
def ConvertToAssignments [GoRuntime] (stmt : Statement) : GoMap DriverValue × Statement :=
  match stmt.Dest with
  | .map m =>
    (m, { stmt with ReflectValue := fun c => assignValue (stmt.ReflectValue c) (m c) })
  | .model =>
    (fun c =>
      match stmt.ReflectValue c with
      | some (.primary _) => none
      | some f => if f.isZero then none else some f.toDriver
      | none => none, stmt)

/-- What the statement, as it stands, writes to a column. -/
def Statement.assigned [GoRuntime] (stmt : Statement) (col : String) : Option DriverValue :=
  (ConvertToAssignments stmt).1 col

/-- The store executing `UPDATE ... SET set WHERE wh` on its row: the row afterwards and
the number of affected rows. -/
def execUpdate (wh : List Expression) (set : GoMap DriverValue) (row : Row) : Row × Nat :=
  if wh.all (fun e => e.holds row) then (fun c => (set c).getD (row c), 1) else (row, 0)

/-- The outcome of an update: the statement (with the model value), the row and
`RowsAffected`. -/
structure UpdateResult where
  stmt : Statement
  row : Row
  RowsAffected : Nat

/-- The update callback of gorm for a schema whose only update clause is `v`:
the hook runs, the assignments are taken from the `SET` clause if the caller
supplied one and from the destination otherwise, and the statement is executed
unless an error was recorded. The callback's early return on an empty
assignment list does not occur after the hook, which always assigns the version
column. A statement whose SQL was already written by the caller is not executed
here. -/
def Update [GoRuntime] (v : VersionUpdateClause) (stmt : Statement) (k : KSUID) (row : Row) : UpdateResult :=
  let stmt1 := v.ModifyStatement stmt k
  if stmt1.SQLLen = 0 then
    let conv : GoMap DriverValue × Statement :=
      match stmt1.Clauses "SET" with
      | some c =>
        match c.Expression with
        | some (.Set as) => (assignmentsToMap as, stmt1)
        | _ => (GoMap.empty, stmt1)
      | none => ConvertToAssignments stmt1
    if conv.2.Error = [] then
      let r := execUpdate conv.2.whereExprs conv.1 row
      { stmt := conv.2, row := r.1, RowsAffected := r.2 }
    else { stmt := conv.2, row := row, RowsAffected := 0 }
  else { stmt := stmt1, row := row, RowsAffected := 0 }

/-- The create callback of gorm for a schema whose only create clause is `v`: the hook runs
and `ConvertToCreateValues` takes every column from the destination. The result
is the statement afterwards and the inserted row. -/
def Create [GoRuntime] (v : VersionCreateClause) (stmt : Statement) (k : KSUID) : Statement × Row :=
  let stmt1 := v.ModifyStatement stmt k
  (stmt1,
    match stmt1.Dest with
    | .map m => fun c => (m c).getD .null
    | .model => fun c =>
      match stmt1.ReflectValue c with
      | some f => f.toDriver
      | none => .null)

/-- Repeated invocation of the update hook on one statement, one KSUID per call. -/
def VersionUpdateClause.ModifyStatementTimes [GoRuntime] (v : VersionUpdateClause) (stmt : Statement) :
    List KSUID → Statement
  | [] => stmt
  | k :: ks => v.ModifyStatementTimes (v.ModifyStatement stmt k) ks

/-! ## Sample data -/

/-- The Go runtime of the closed examples: a failed `Scan` leaves the string and clears
`Valid`; the formatting functions render the float `1.5` and the Unix epoch,
the two values the examples use. -/
instance sampleRuntime : GoRuntime where
  FormatFloat := fun _ bits => if bits = 0x3FF8000000000000 then "1.5" else "0"
  FormatTime := fun t =>
    if t = { unixSec := 0, nsec := 0, offset := 0 } then "1970-01-01T00:00:00Z"
    else "0001-01-01T00:00:00Z"
  ScanFailed := fun v => { v with Valid := false }

/-- The version field of `TestEntity`. -/
def versionField : Field := { DBName := "version" }

/-- A `TestEntity` in memory: id 3, a name and a token. -/
def sampleRecord (name : String) (t : Version) : GoMap FieldValue :=
  ((GoMap.empty.set "id" (.primary (.uint 3))).set "name" (.plain (.str name))).set "version" (.token t)

/-- The statement of `Db.Create(&e)`: nothing built, the destination is the model. -/
def sampleCreate (t : Version) : Statement :=
  { SQL := "", Clauses := GoMap.empty, Dest := .model, ReflectValue := sampleRecord "created" t,
    Error := [] }

/-- The statement of `Db.Model(&e).Update("name", name)`. -/
def sampleUpdate (name : String) (t : Version) : Statement :=
  { SQL := "", Clauses := GoMap.empty, Dest := .map (GoMap.empty.set "name" (.str name)),
    ReflectValue := sampleRecord "created" t, Error := [] }

/-- The stored row of that entity. -/
def sampleRow (t : DriverValue) : Row :=
  fun c => if c = "id" then .uint 3 else if c = "name" then .str "created"
    else if c = "version" then t else .null

/-! ## Auxiliary definitions for the proofs -/

/-- The statement between the guarded block of the update hook and its final
`SetColumn`: the predicate was added if the guard was open and the token is
present, and the guard is closed. -/
def VersionUpdateClause.guarded (v : VersionUpdateClause) (stmt : Statement) : Statement :=
  if (stmt.Clauses "concurrency_query").isNone then
    { (match v.Field.ValueOf stmt.ReflectValue with
        | (some (.token cvv), false) =>
          if cvv.Valid then
            stmt.AddClause (.Where
              [.Eq { Table := CurrentTable, Name := v.Field.DBName } (.str cvv.String)])
          else stmt
        | _ => stmt) with
      Clauses := (match v.Field.ValueOf stmt.ReflectValue with
        | (some (.token cvv), false) =>
          if cvv.Valid then
            stmt.AddClause (.Where
              [.Eq { Table := CurrentTable, Name := v.Field.DBName } (.str cvv.String)])
          else stmt
        | _ => stmt).Clauses.set "concurrency_query" Clause.zero }
  else stmt

/-- The scanner, started in state `s`, accepts the rest of the input. -/
def Accepts (s : Scanner) (l : List Char) : Prop :=
  ∃ s1, scanAll s l = some s1 ∧ s1.eof = true

/-! ## Theorems: the token and its conversions -/

/-- C6 (storage round trip): for every token `t`, absent ones included whatever
string they hold, `Value` returns a storage value without error, and `Scan` of
that value into any receiver `r` succeeds and leaves a token equal to `t` in the
sense of `Version.Equal`. -/
theorem C6_scan_value_round_trip [GoRuntime] (t r : Version) :
    t.Value.2 = none ∧ (r.Scan t.Value.1).1 = none ∧
      Version.Equal (r.Scan t.Value.1).2 t := by
  obtain ⟨s, valid⟩ := t
  cases valid <;> simp [Version.Value, Version.Scan, convertAssign, Version.Equal]

/-- C7, as stated, fails: scanning the integer driver value `42` returns no error
and produces a present token holding the text `42`. -/
theorem C7_scan_integer_counterexample :
    (Version.Scan { String := "", Valid := false } (.int 42)).1 = none ∧
      (Version.Scan { String := "", Valid := false } (.int 42)).2 =
        { String := "42", Valid := true } := by
  decide

/-- C7 (amended): `Scan` of null gives an absent token and no error; of a string
or byte slice, a present token with exactly that content and no error; of an
integer, boolean, float or timestamp value, a present token holding the text
the standard library renders for it (decimal digits, `true`/`false`,
`strconv.FormatFloat`, RFC 3339), and no error; a value of a kind without a
string conversion makes `Scan` return the "unsupported Scan" error. -/
theorem C7_scan_cases [GoRuntime] (v : Version) (x : DriverValue) :
    (x = .null → v.Scan x = (none, { String := "", Valid := false })) ∧
    (∀ s, x = .str s → v.Scan x = (none, { String := s, Valid := true })) ∧
    (∀ b, x = .bytes b → v.Scan x = (none, { String := b, Valid := true })) ∧
    (∀ i, x = .int i → v.Scan x = (none, { String := toString i, Valid := true })) ∧
    (∀ n, x = .uint n → v.Scan x = (none, { String := toString n, Valid := true })) ∧
    (∀ b, x = .bool b →
      v.Scan x = (none, { String := if b then "true" else "false", Valid := true })) ∧
    (∀ bits, x = .float32 bits →
      v.Scan x = (none, { String := GoRuntime.FormatFloat 32 bits, Valid := true })) ∧
    (∀ bits, x = .float64 bits →
      v.Scan x = (none, { String := GoRuntime.FormatFloat 64 bits, Valid := true })) ∧
    (∀ t, x = .time t → v.Scan x = (none, { String := GoRuntime.FormatTime t, Valid := true })) ∧
    (∀ ty, x = .other ty → (v.Scan x).1 = some (.unsupportedScan ty)) := by
  refine ⟨?_, ?_, ?_, ?_, ?_, ?_, ?_, ?_, ?_, ?_⟩
  · rintro rfl; simp [Version.Scan]
  all_goals (rintro y rfl; simp [Version.Scan, convertAssign, asString])

/-- C7 (amended), at a boolean, at the float `1.5`, at the Unix epoch and at a
struct value. -/
theorem C7_scan_cases_witness :
    Version.Scan { String := "old", Valid := false } (.bool true) =
        (none, { String := "true", Valid := true }) ∧
      Version.Scan { String := "old", Valid := false } (.float64 0x3FF8000000000000) =
        (none, { String := "1.5", Valid := true }) ∧
      Version.Scan { String := "old", Valid := false } (.time { unixSec := 0, nsec := 0, offset := 0 }) =
        (none, { String := "1970-01-01T00:00:00Z", Valid := true }) ∧
      (Version.Scan { String := "old", Valid := false } (.other "struct")).1 =
        some (.unsupportedScan "struct") :=
  ⟨(C7_scan_cases { String := "old", Valid := false } (.bool true)).2.2.2.2.2.1 true rfl,
    (C7_scan_cases { String := "old", Valid := false }
      (.float64 0x3FF8000000000000)).2.2.2.2.2.2.2.1 _ rfl,
    (C7_scan_cases { String := "old", Valid := false }
      (.time { unixSec := 0, nsec := 0, offset := 0 })).2.2.2.2.2.2.2.2.1 _ rfl,
    (C7_scan_cases { String := "old", Valid := false } (.other "struct")).2.2.2.2.2.2.2.2.2
      "struct" rfl⟩

/-- C9 (an absent token writes as null): for a token with `Valid = false`,
whatever its string, `Value` returns the null storage value with no error and
`MarshalJSON` returns exactly the bytes `null` with no error; for a token with
`Valid = true`, `Value` returns exactly its raw string with no error. -/
theorem C9_absent_is_null (t : Version) :
    (t.Valid = false → t.Value = (.null, none) ∧ t.MarshalJSON = ("null", none)) ∧
    (t.Valid = true → t.Value = (.str t.String, none)) := by
  constructor
  · intro h; simp [Version.Value, Version.MarshalJSON, h]
  · intro h; simp [Version.Value, h]

/-- C9 at an absent token that still holds a string, and at a present one. -/
theorem C9_absent_is_null_witness :
    (Version.Value { String := "stale", Valid := false } = (.null, none) ∧
        Version.MarshalJSON { String := "stale", Valid := false } = ("null", none)) ∧
      Version.Value { String := "abc", Valid := true } = (.str "abc", none) :=
  ⟨(C9_absent_is_null { String := "stale", Valid := false }).1 rfl,
    (C9_absent_is_null { String := "abc", Valid := true }).2 rfl⟩

/-! ## Lemmas on the statement operations -/

@[simp] theorem GoMap.set_apply {α : Type} (m : GoMap α) (k : String) (v : α) (x : String) :
    m.set k v x = if x = k then some v else m x := rfl

theorem KSUID.String_length (k : KSUID) : (KSUID.String k).length = 27 := by
  simp [KSUID.String, String.length]

theorem NewVersion_String_ne_empty (k : KSUID) : (NewVersion k).String ≠ "" := by
  intro h
  have hlen := KSUID.String_length k
  simp only [NewVersion] at h
  rw [h] at hlen
  simp at hlen

theorem Statement.SQLLen_eq_zero {stmt : Statement} (h : stmt.SQL = "") : stmt.SQLLen = 0 := by
  simp [Statement.SQLLen, h, String.utf8ByteSize, String.utf8ByteSize.go]

@[simp] theorem Statement.AddError_SQL (stmt : Statement) (e : Option ConvError) :
    (stmt.AddError e).SQL = stmt.SQL := by
  cases e <;> rfl

@[simp] theorem Statement.AddError_Clauses (stmt : Statement) (e : Option ConvError) :
    (stmt.AddError e).Clauses = stmt.Clauses := by
  cases e <;> rfl

@[simp] theorem Statement.AddError_Dest (stmt : Statement) (e : Option ConvError) :
    (stmt.AddError e).Dest = stmt.Dest := by
  cases e <;> rfl

@[simp] theorem Statement.AddError_ReflectValue (stmt : Statement) (e : Option ConvError) :
    (stmt.AddError e).ReflectValue = stmt.ReflectValue := by
  cases e <;> rfl

@[simp] theorem Statement.AddError_none (stmt : Statement) : stmt.AddError none = stmt := rfl

@[simp] theorem Statement.SetColumn_SQL [GoRuntime] (stmt : Statement) (n : String) (x : DriverValue) :
    (stmt.SetColumn n x).SQL = stmt.SQL := by
  unfold Statement.SetColumn
  split
  · rfl
  · split <;> simp

@[simp] theorem Statement.SetColumn_Clauses [GoRuntime] (stmt : Statement) (n : String) (x : DriverValue) :
    (stmt.SetColumn n x).Clauses = stmt.Clauses := by
  unfold Statement.SetColumn
  split
  · rfl
  · split <;> simp

@[simp] theorem Statement.AddClause_SQL (stmt : Statement) (b : ClauseBody) :
    (stmt.AddClause b).SQL = stmt.SQL := by
  cases b <;> rfl

@[simp] theorem Statement.AddClause_Dest (stmt : Statement) (b : ClauseBody) :
    (stmt.AddClause b).Dest = stmt.Dest := by
  cases b <;> rfl

@[simp] theorem Statement.AddClause_ReflectValue (stmt : Statement) (b : ClauseBody) :
    (stmt.AddClause b).ReflectValue = stmt.ReflectValue := by
  cases b <;> rfl

@[simp] theorem Statement.AddClause_Error (stmt : Statement) (b : ClauseBody) :
    (stmt.AddClause b).Error = stmt.Error := by
  cases b <;> rfl

theorem FieldValue.Set_token_str [GoRuntime] (t : Version) (w : String) :
    (FieldValue.token t).Set (.str w) = (none, .token { String := w, Valid := true }) := by
  simp [FieldValue.Set, Version.Scan, convertAssign]

/-- Setting a string on a column whose model field is a token: what the
statement then writes to the column, the model field, and the errors. -/
theorem Statement.SetColumn_token [GoRuntime] (stmt : Statement) (n w : String) (t : Version)
    (hrec : stmt.ReflectValue n = some (.token t)) :
    (stmt.SetColumn n (.str w)).assigned n = some (.str w) ∧
      (∃ t1, (stmt.SetColumn n (.str w)).ReflectValue n = some (.token t1)) ∧
      (stmt.Dest = .model →
        (stmt.SetColumn n (.str w)).ReflectValue n =
          some (.token { String := w, Valid := true })) ∧
      (stmt.SetColumn n (.str w)).Error = stmt.Error := by
  unfold Statement.SetColumn
  cases hd : stmt.Dest with
  | map m =>
    simp [Statement.assigned, ConvertToAssignments, GoMap.set, hrec]
  | model =>
    simp [Statement.assigned, ConvertToAssignments, GoMap.set, hrec, FieldValue.Set_token_str,
      FieldValue.isZero, FieldValue.toDriver, Version.Value]

/-! ## Theorems: the insert hook -/

/-- What the insert hook does to any record whose version field is a token,
present or not: the `SET` clause, the model field and the inserted row all
carry the token generated by `NewVersion`. -/
theorem VersionCreateClause.ModifyStatement_stamps [GoRuntime] (v : VersionCreateClause) (stmt : Statement)
    (k : KSUID) (t : Version) (hsql : stmt.SQL = "") (hdest : stmt.Dest = .model)
    (hrec : stmt.ReflectValue v.Field.DBName = some (.token t)) :
    (v.ModifyStatement stmt k).Clauses "SET" =
        some { Name := "SET", Expression := some (.Set
          [{ Column := { Table := "", Name := v.Field.DBName },
             Value := .str (NewVersion k).String }]) } ∧
      (v.ModifyStatement stmt k).ReflectValue v.Field.DBName = some (.token (NewVersion k)) ∧
      (Create v stmt k).2 v.Field.DBName = .str (NewVersion k).String := by
  have h0 := Statement.SQLLen_eq_zero hsql
  have hnv : ({ String := (NewVersion k).String, Valid := true } : Version) = NewVersion k := rfl
  simp [VersionCreateClause.ModifyStatement, Create, h0, Statement.SetColumn, hdest, hrec,
    FieldValue.Set_token_str, Statement.AddClause, GoMap.set, FieldValue.toDriver, Version.Value,
    hnv]
  simp [NewVersion]

/-- C5 (insert stamps an unset token): for a record whose token is absent, after
the insert hook has run on the not-yet-built statement the version column is
assigned the value of the token `NewVersion` produced (in the `SET` clause and
in the inserted row), and the record's in-memory token is that token: present,
with the same, non-empty value. -/
theorem C5_insert_stamps_unset [GoRuntime] (v : VersionCreateClause) (stmt : Statement)
    (k : KSUID) (t : Version) (hsql : stmt.SQL = "") (hdest : stmt.Dest = .model)
    (hrec : stmt.ReflectValue v.Field.DBName = some (.token t)) (_habsent : t.Valid = false) :
    (v.ModifyStatement stmt k).Clauses "SET" =
        some { Name := "SET", Expression := some (.Set
          [{ Column := { Table := "", Name := v.Field.DBName },
             Value := .str (NewVersion k).String }]) } ∧
      (Create v stmt k).2 v.Field.DBName = .str (NewVersion k).String ∧
      (v.ModifyStatement stmt k).ReflectValue v.Field.DBName =
        some (.token { String := (NewVersion k).String, Valid := true }) ∧
      (NewVersion k).String ≠ "" := by
  obtain ⟨h1, h2, h3⟩ := VersionCreateClause.ModifyStatement_stamps v stmt k t hsql hdest hrec
  exact ⟨h1, h3, h2, NewVersion_String_ne_empty k⟩

/-- C5 at `Db.Create(&e)` for an entity without a token and the KSUID `12345`. -/
theorem C5_insert_stamps_unset_witness :
    (VersionCreateClause.ModifyStatement ⟨versionField⟩
        (sampleCreate { String := "", Valid := false }) 12345).Clauses "SET" =
        some { Name := "SET", Expression := some (.Set
          [{ Column := { Table := "", Name := "version" },
             Value := .str (NewVersion 12345).String }]) } ∧
      (Create ⟨versionField⟩ (sampleCreate { String := "", Valid := false }) 12345).2 "version" =
        .str (NewVersion 12345).String ∧
      (VersionCreateClause.ModifyStatement ⟨versionField⟩
        (sampleCreate { String := "", Valid := false }) 12345).ReflectValue "version" =
        some (.token { String := (NewVersion 12345).String, Valid := true }) ∧
      (NewVersion 12345).String ≠ "" :=
  C5_insert_stamps_unset ⟨versionField⟩ (sampleCreate { String := "", Valid := false }) 12345
    { String := "", Valid := false } rfl rfl (by decide) rfl

/-- C2, as stated, fails: inserting a record whose token is already present with
the value `explicit` leaves neither the version column nor the in-memory token
at `explicit`; both hold the token the hook generated. -/
theorem C2_explicit_token_counterexample :
    (Create ⟨versionField⟩ (sampleCreate { String := "explicit", Valid := true }) 1).2 "version" ≠
        .str "explicit" ∧
      (VersionCreateClause.ModifyStatement ⟨versionField⟩
        (sampleCreate { String := "explicit", Valid := true }) 1).ReflectValue "version" ≠
        some (.token { String := "explicit", Valid := true }) ∧
      (VersionCreateClause.ModifyStatement ⟨versionField⟩
        (sampleCreate { String := "explicit", Valid := true }) 1).ReflectValue "version" =
        some (.token { String := "000000000000000000000000001", Valid := true }) := by
  decide

/-- C2 (amended): the insert hook generates a token unconditionally. For a
record whose token is already present with value `s`, after the hook has run on
the not-yet-built statement the value assigned to the version column and the
in-memory token are both the newly generated token, so they equal `s` only
when the generator returns `s`. -/
theorem C2_insert_overwrites_explicit [GoRuntime] (v : VersionCreateClause) (stmt : Statement)
    (k : KSUID) (s : String) (hsql : stmt.SQL = "") (hdest : stmt.Dest = .model)
    (hrec : stmt.ReflectValue v.Field.DBName = some (.token { String := s, Valid := true })) :
    (Create v stmt k).2 v.Field.DBName = .str (NewVersion k).String ∧
      (v.ModifyStatement stmt k).ReflectValue v.Field.DBName = some (.token (NewVersion k)) ∧
      ((Create v stmt k).2 v.Field.DBName = .str s ↔ (NewVersion k).String = s) := by
  obtain ⟨_, h2, h3⟩ := VersionCreateClause.ModifyStatement_stamps v stmt k _ hsql hdest hrec
  refine ⟨h3, h2, ?_⟩
  rw [h3]
  simp

/-- C2 (amended) at `Db.Create(&e)` for an entity created with the token `explicit`. -/
theorem C2_insert_overwrites_explicit_witness :
    (Create ⟨versionField⟩ (sampleCreate { String := "explicit", Valid := true }) 7).2 "version" =
        .str (NewVersion 7).String ∧
      (VersionCreateClause.ModifyStatement ⟨versionField⟩
        (sampleCreate { String := "explicit", Valid := true }) 7).ReflectValue "version" =
        some (.token (NewVersion 7)) ∧
      ((Create ⟨versionField⟩ (sampleCreate { String := "explicit", Valid := true }) 7).2
          "version" = .str "explicit" ↔ (NewVersion 7).String = "explicit") :=
  C2_insert_overwrites_explicit ⟨versionField⟩
    (sampleCreate { String := "explicit", Valid := true }) 7 "explicit" rfl rfl (by decide)

/-! ## Theorems: the update hook -/

theorem VersionUpdateClause.ModifyStatement_eq [GoRuntime] (v : VersionUpdateClause) (stmt : Statement)
    (k : KSUID) (hsql : stmt.SQL = "") :
    v.ModifyStatement stmt k = (v.guarded stmt).SetColumn v.Field.DBName (.str (NewVersion k).String) := by
  simp [VersionUpdateClause.ModifyStatement, VersionUpdateClause.guarded,
    Statement.SQLLen_eq_zero hsql]

theorem VersionUpdateClause.guarded_fields [GoRuntime] (v : VersionUpdateClause) (stmt : Statement) :
    (v.guarded stmt).SQL = stmt.SQL ∧ (v.guarded stmt).Dest = stmt.Dest ∧
      (v.guarded stmt).ReflectValue = stmt.ReflectValue ∧
      (v.guarded stmt).Error = stmt.Error ∧
      (v.guarded stmt).Clauses "concurrency_query" ≠ none ∧
      (v.guarded stmt).Clauses "SET" = stmt.Clauses "SET" := by
  unfold VersionUpdateClause.guarded
  split
  · split
    · split <;> simp [GoMap.set, Statement.AddClause]
    · simp [GoMap.set]
  · rename_i h
    simp only [Option.isNone_iff_eq_none] at h
    exact ⟨rfl, rfl, rfl, rfl, h, rfl⟩

theorem VersionUpdateClause.guarded_closed [GoRuntime] (v : VersionUpdateClause) (stmt : Statement)
    (h : stmt.Clauses "concurrency_query" ≠ none) : v.guarded stmt = stmt := by
  unfold VersionUpdateClause.guarded
  rw [if_neg]
  simpa [Option.isNone_iff_eq_none] using h

theorem VersionUpdateClause.guarded_whereExprs [GoRuntime] (v : VersionUpdateClause) (stmt : Statement)
    (t : Version) (hfresh : stmt.Clauses "concurrency_query" = none)
    (hrec : stmt.ReflectValue v.Field.DBName = some (.token t)) :
    (v.guarded stmt).whereExprs =
        stmt.whereExprs ++
          (if t.Valid then [.Eq { Table := CurrentTable, Name := v.Field.DBName } (.str t.String)]
            else []) ∧
      (t.Valid = false → (v.guarded stmt).Clauses "WHERE" = stmt.Clauses "WHERE") := by
  obtain ⟨s, valid⟩ := t
  unfold VersionUpdateClause.guarded
  cases valid
  · cases hs : decide (s = "") <;>
      simp_all [Field.ValueOf, FieldValue.isZero, Statement.whereExprs, GoMap.set]
  · simp only [hfresh, Field.ValueOf, hrec, FieldValue.isZero]
    simp only [Statement.whereExprs, Statement.AddClause, GoMap.set]
    cases hw : stmt.Clauses "WHERE" with
    | none => simp [Clause.zero, hw]
    | some c =>
      obtain ⟨n, e⟩ := c
      cases e with
      | none => simp [hw]
      | some b => cases b <;> simp [hw]

theorem Statement.whereExprs_congr {s1 s2 : Statement} (h : s1.Clauses = s2.Clauses) :
    s1.whereExprs = s2.whereExprs := by
  simp [Statement.whereExprs, h]

/-- One invocation of the update hook on a statement that is not built: the
fields it leaves alone, the closed guard, and the version assignment. -/
theorem VersionUpdateClause.ModifyStatement_facts [GoRuntime] (v : VersionUpdateClause) (stmt : Statement)
    (k : KSUID) (t : Version) (hsql : stmt.SQL = "")
    (hrec : stmt.ReflectValue v.Field.DBName = some (.token t)) :
    (v.ModifyStatement stmt k).SQL = "" ∧
      (v.ModifyStatement stmt k).Clauses = (v.guarded stmt).Clauses ∧
      (v.ModifyStatement stmt k).Clauses "concurrency_query" ≠ none ∧
      (∃ t1, (v.ModifyStatement stmt k).ReflectValue v.Field.DBName = some (.token t1)) ∧
      (v.ModifyStatement stmt k).assigned v.Field.DBName = some (.str (NewVersion k).String) ∧
      (v.ModifyStatement stmt k).Error = stmt.Error := by
  obtain ⟨g1, g2, g3, g4, g5, _⟩ := v.guarded_fields stmt
  have hrec1 : (v.guarded stmt).ReflectValue v.Field.DBName = some (.token t) := by
    rw [g3]; exact hrec
  obtain ⟨c1, c2, _, c4⟩ :=
    Statement.SetColumn_token (v.guarded stmt) v.Field.DBName (NewVersion k).String t hrec1
  rw [v.ModifyStatement_eq stmt k hsql]
  refine ⟨?_, ?_, ?_, c2, c1, ?_⟩
  · simp [g1, hsql]
  · simp
  · simpa using g5
  · rw [c4, g4]

/-- C10 (the version predicate is added exactly when a token was read): on a
statement that is not built and on which the hook has not run, the hook changes
the `WHERE` expressions iff the record's token is present; when it is, exactly
the one equality `current-table.version-column = token value` is appended; when
it is absent the `WHERE` clause is untouched; in both cases the newly generated
token is what the statement assigns to the version column. -/
theorem C10_predicate_iff_token_present [GoRuntime] (v : VersionUpdateClause) (stmt : Statement)
    (k : KSUID) (t : Version) (hsql : stmt.SQL = "")
    (hfresh : stmt.Clauses "concurrency_query" = none)
    (hrec : stmt.ReflectValue v.Field.DBName = some (.token t)) :
    ((v.ModifyStatement stmt k).whereExprs ≠ stmt.whereExprs ↔ t.Valid = true) ∧
      (t.Valid = true →
        (v.ModifyStatement stmt k).whereExprs =
          stmt.whereExprs ++
            [.Eq { Table := CurrentTable, Name := v.Field.DBName } (.str t.String)]) ∧
      (t.Valid = false → (v.ModifyStatement stmt k).Clauses "WHERE" = stmt.Clauses "WHERE") ∧
      (v.ModifyStatement stmt k).assigned v.Field.DBName =
        some (.str (NewVersion k).String) := by
  obtain ⟨_, f2, _, _, f5, _⟩ := v.ModifyStatement_facts stmt k t hsql hrec
  obtain ⟨w1, w2⟩ := v.guarded_whereExprs stmt t hfresh hrec
  have hw : (v.ModifyStatement stmt k).whereExprs = (v.guarded stmt).whereExprs :=
    Statement.whereExprs_congr f2
  refine ⟨?_, ?_, ?_, f5⟩
  · rw [hw, w1]
    cases t.Valid <;> simp
  · intro ht
    rw [hw, w1]
    simp [ht]
  · intro ht
    rw [f2]
    exact w2 ht

/-- C10 at `Db.Model(&e).Update("name", "x")` for an entity read with the token `v1`. -/
theorem C10_predicate_iff_token_present_witness :
    ((VersionUpdateClause.ModifyStatement ⟨versionField⟩
          (sampleUpdate "x" { String := "v1", Valid := true }) 5).whereExprs ≠
        (sampleUpdate "x" { String := "v1", Valid := true }).whereExprs ↔
        ({ String := "v1", Valid := true } : Version).Valid = true) ∧
      (({ String := "v1", Valid := true } : Version).Valid = true →
        (VersionUpdateClause.ModifyStatement ⟨versionField⟩
          (sampleUpdate "x" { String := "v1", Valid := true }) 5).whereExprs =
          (sampleUpdate "x" { String := "v1", Valid := true }).whereExprs ++
            [.Eq { Table := CurrentTable, Name := "version" } (.str "v1")]) ∧
      (({ String := "v1", Valid := true } : Version).Valid = false →
        (VersionUpdateClause.ModifyStatement ⟨versionField⟩
          (sampleUpdate "x" { String := "v1", Valid := true }) 5).Clauses "WHERE" =
          (sampleUpdate "x" { String := "v1", Valid := true }).Clauses "WHERE") ∧
      (VersionUpdateClause.ModifyStatement ⟨versionField⟩
        (sampleUpdate "x" { String := "v1", Valid := true }) 5).assigned "version" =
        some (.str (NewVersion 5).String) :=
  C10_predicate_iff_token_present ⟨versionField⟩
    (sampleUpdate "x" { String := "v1", Valid := true }) 5 { String := "v1", Valid := true }
    rfl rfl (by decide)

/-- Invocations of the update hook after the first: the clause map stays as it
is and the version assignment is the token of the last invocation. -/
theorem VersionUpdateClause.ModifyStatementTimes_closed [GoRuntime] (v : VersionUpdateClause)
    (ks : List KSUID) :
    ∀ (stmt : Statement) (k : KSUID) (t : Version), stmt.SQL = "" →
      stmt.Clauses "concurrency_query" ≠ none →
      stmt.ReflectValue v.Field.DBName = some (.token t) →
      (v.ModifyStatementTimes stmt (k :: ks)).Clauses = stmt.Clauses ∧
        (v.ModifyStatementTimes stmt (k :: ks)).assigned v.Field.DBName =
          some (.str (NewVersion ((k :: ks).getLast (List.cons_ne_nil k ks))).String) := by
  induction ks with
  | nil =>
    intro stmt k t hsql hclosed hrec
    obtain ⟨_, f2, _, _, f5, _⟩ := v.ModifyStatement_facts stmt k t hsql hrec
    rw [v.guarded_closed stmt hclosed] at f2
    exact ⟨f2, f5⟩
  | cons k1 ks ih =>
    intro stmt k t hsql hclosed hrec
    obtain ⟨f1, f2, f3, ⟨t1, f4⟩, _, _⟩ := v.ModifyStatement_facts stmt k t hsql hrec
    rw [v.guarded_closed stmt hclosed] at f2
    obtain ⟨i1, i2⟩ := ih (v.ModifyStatement stmt k) k1 t1 f1 f3 f4
    refine ⟨?_, ?_⟩
    · show (v.ModifyStatementTimes (v.ModifyStatement stmt k) (k1 :: ks)).Clauses = _
      rw [i1, f2]
    · show (v.ModifyStatementTimes (v.ModifyStatement stmt k) (k1 :: ks)).assigned _ = _
      rw [i2]
      simp [List.getLast_cons]

/-- C3, as stated, fails: a second invocation of the update hook on the same
unbuilt statement changes the version assignment - two invocations, drawing the
KSUIDs `1` and `2`, assign another token than a single invocation drawing `1`. -/
theorem C3_second_invocation_counterexample :
    (VersionUpdateClause.ModifyStatementTimes ⟨versionField⟩
        (sampleUpdate "x" { String := "v1", Valid := true }) [1, 2]).assigned "version" ≠
      (VersionUpdateClause.ModifyStatementTimes ⟨versionField⟩
        (sampleUpdate "x" { String := "v1", Valid := true }) [1]).assigned "version" := by
  decide

/-- C3 (amended): on a statement that is not built, the version-equality
predicate is added at most once - the second and later invocations of the
update hook leave the whole clause map, and so the `WHERE` expressions, as the
first invocation left them - but every invocation generates a new token and
assigns it to the version column: after `n >= 1` invocations the statement
assigns the token generated by the last one. -/
theorem C3_predicate_once_version_last [GoRuntime] (v : VersionUpdateClause) (stmt : Statement)
    (k : KSUID) (ks : List KSUID) (t : Version) (hsql : stmt.SQL = "")
    (hrec : stmt.ReflectValue v.Field.DBName = some (.token t)) :
    (v.ModifyStatementTimes stmt (k :: ks)).Clauses = (v.ModifyStatement stmt k).Clauses ∧
      (v.ModifyStatementTimes stmt (k :: ks)).whereExprs =
        (v.ModifyStatement stmt k).whereExprs ∧
      (v.ModifyStatementTimes stmt (k :: ks)).assigned v.Field.DBName =
        some (.str (NewVersion ((k :: ks).getLast (List.cons_ne_nil k ks))).String) := by
  obtain ⟨f1, _, f3, ⟨t1, f4⟩, f5, _⟩ := v.ModifyStatement_facts stmt k t hsql hrec
  cases ks with
  | nil => exact ⟨rfl, rfl, f5⟩
  | cons k1 ks =>
    obtain ⟨i1, i2⟩ :=
      v.ModifyStatementTimes_closed ks (v.ModifyStatement stmt k) k1 t1 f1 f3 f4
    refine ⟨i1, Statement.whereExprs_congr i1, ?_⟩
    show (v.ModifyStatementTimes (v.ModifyStatement stmt k) (k1 :: ks)).assigned _ = _
    rw [i2]
    simp [List.getLast_cons]

/-- C3 (amended) at three invocations drawing the KSUIDs `1`, `2`, `3`. -/
theorem C3_predicate_once_version_last_witness :
    (VersionUpdateClause.ModifyStatementTimes ⟨versionField⟩
        (sampleUpdate "x" { String := "v1", Valid := true }) [1, 2, 3]).Clauses =
        (VersionUpdateClause.ModifyStatement ⟨versionField⟩
          (sampleUpdate "x" { String := "v1", Valid := true }) 1).Clauses ∧
      (VersionUpdateClause.ModifyStatementTimes ⟨versionField⟩
        (sampleUpdate "x" { String := "v1", Valid := true }) [1, 2, 3]).whereExprs =
        (VersionUpdateClause.ModifyStatement ⟨versionField⟩
          (sampleUpdate "x" { String := "v1", Valid := true }) 1).whereExprs ∧
      (VersionUpdateClause.ModifyStatementTimes ⟨versionField⟩
        (sampleUpdate "x" { String := "v1", Valid := true }) [1, 2, 3]).assigned "version" =
        some (.str (NewVersion 3).String) :=
  C3_predicate_once_version_last ⟨versionField⟩
    (sampleUpdate "x" { String := "v1", Valid := true }) 1 [2, 3]
    { String := "v1", Valid := true } rfl (by decide)

/-! ## Theorems: the update against the stored row -/

theorem ConvertToAssignments_fields [GoRuntime] (stmt : Statement) :
    (ConvertToAssignments stmt).2.Clauses = stmt.Clauses ∧
      (ConvertToAssignments stmt).2.Error = stmt.Error := by
  unfold ConvertToAssignments
  cases stmt.Dest <;> exact ⟨rfl, rfl⟩

/-- The model field of the version column once `SetColumn` and then
`ConvertToAssignments` have run: the token just set. -/
theorem ConvertToAssignments_SetColumn_token [GoRuntime] (stmt : Statement) (n w : String) (t : Version)
    (hrec : stmt.ReflectValue n = some (.token t)) :
    (ConvertToAssignments (stmt.SetColumn n (.str w))).2.ReflectValue n =
      some (.token { String := w, Valid := true }) := by
  unfold Statement.SetColumn
  cases hd : stmt.Dest with
  | map m => simp [ConvertToAssignments, assignValue, hrec, FieldValue.Set_token_str]
  | model => simp [ConvertToAssignments, hrec, FieldValue.Set_token_str]

/-- The update callback on an unbuilt statement without a `SET` clause of its own. -/
theorem Update_eq [GoRuntime] (v : VersionUpdateClause) (stmt : Statement) (k : KSUID) (row : Row)
    (t : Version) (hsql : stmt.SQL = "") (hset : stmt.Clauses "SET" = none)
    (hrec : stmt.ReflectValue v.Field.DBName = some (.token t)) :
    Update v stmt k row =
      if stmt.Error = [] then
        { stmt := (ConvertToAssignments (v.ModifyStatement stmt k)).2,
          row := (execUpdate (v.ModifyStatement stmt k).whereExprs
            (ConvertToAssignments (v.ModifyStatement stmt k)).1 row).1,
          RowsAffected := (execUpdate (v.ModifyStatement stmt k).whereExprs
            (ConvertToAssignments (v.ModifyStatement stmt k)).1 row).2 }
      else
        { stmt := (ConvertToAssignments (v.ModifyStatement stmt k)).2, row := row,
          RowsAffected := 0 } := by
  obtain ⟨f1, f2, _, _, _, f6⟩ := v.ModifyStatement_facts stmt k t hsql hrec
  obtain ⟨_, _, _, _, _, g6⟩ := v.guarded_fields stmt
  obtain ⟨c1, c2⟩ := ConvertToAssignments_fields (v.ModifyStatement stmt k)
  have hs : (v.ModifyStatement stmt k).Clauses "SET" = none := by rw [f2, g6, hset]
  have hw : (ConvertToAssignments (v.ModifyStatement stmt k)).2.whereExprs =
      (v.ModifyStatement stmt k).whereExprs := Statement.whereExprs_congr c1
  simp only [Update, Statement.SQLLen_eq_zero f1, hs, if_true, c2, f6, hw]

/-- The row after a statement that matched: every assigned column holds the
assigned value. -/
theorem execUpdate_matched [GoRuntime] (wh : List Expression) (set : GoMap DriverValue) (row : Row)
    (c : String) (x : DriverValue) (hc : set c = some x) (h : (execUpdate wh set row).2 = 1) :
    (execUpdate wh set row).1 c = x := by
  unfold execUpdate at h ⊢
  split at h
  · rename_i hall
    simp [hall, hc]
  · simp at h

/-- C4 (a successful update re-stamps the record): for a record holding a
present token `t`, updated through an unbuilt statement that matches its row
(`RowsAffected = 1`), with a generated value different from `t`'s: the version
written to the row is the generated value `w`, non-empty and different from
`t`'s value; the record's in-memory token afterwards is the present token `w`;
and scanning the row's version column again, into any receiver, returns the
present token `w`. -/
theorem C4_successful_update_restamps [GoRuntime] (v : VersionUpdateClause) (stmt : Statement)
    (k : KSUID) (row : Row) (t : Version) (hsql : stmt.SQL = "")
    (hset : stmt.Clauses "SET" = none)
    (hrec : stmt.ReflectValue v.Field.DBName = some (.token t)) (_hpresent : t.Valid = true)
    (hgen : (NewVersion k).String ≠ t.String)
    (haff : (Update v stmt k row).RowsAffected = 1) :
    (Update v stmt k row).row v.Field.DBName = .str (NewVersion k).String ∧
      (NewVersion k).String ≠ "" ∧ (NewVersion k).String ≠ t.String ∧
      (Update v stmt k row).stmt.ReflectValue v.Field.DBName =
        some (.token { String := (NewVersion k).String, Valid := true }) ∧
      ∀ r : Version, r.Scan ((Update v stmt k row).row v.Field.DBName) =
        (none, { String := (NewVersion k).String, Valid := true }) := by
  obtain ⟨_, _, _, _, f5, _⟩ := v.ModifyStatement_facts stmt k t hsql hrec
  obtain ⟨g1, g2, g3, g4, g5, _⟩ := v.guarded_fields stmt
  have hmem : (ConvertToAssignments (v.ModifyStatement stmt k)).2.ReflectValue v.Field.DBName =
      some (.token { String := (NewVersion k).String, Valid := true }) := by
    rw [v.ModifyStatement_eq stmt k hsql]
    exact ConvertToAssignments_SetColumn_token _ _ _ t (by rw [g3]; exact hrec)
  rw [Update_eq v stmt k row t hsql hset hrec] at haff ⊢
  by_cases he : stmt.Error = []
  · simp only [he, if_true] at haff ⊢
    have hrow : (execUpdate (v.ModifyStatement stmt k).whereExprs
        (ConvertToAssignments (v.ModifyStatement stmt k)).1 row).1 v.Field.DBName =
        .str (NewVersion k).String := execUpdate_matched _ _ row _ _ f5 haff
    refine ⟨hrow, NewVersion_String_ne_empty k, hgen, hmem, ?_⟩
    intro r
    rw [hrow]
    simp [Version.Scan, convertAssign]
  · simp [he] at haff

/-- C4 at the first update of `TestConcurrency`: the entity read with the token
`v1` is updated against the row that still holds `v1`. -/
theorem C4_successful_update_restamps_witness :
    (Update ⟨versionField⟩ (sampleUpdate "first name" { String := "v1", Valid := true }) 9
        (sampleRow (.str "v1"))).row "version" = .str (NewVersion 9).String ∧
      (NewVersion 9).String ≠ "" ∧ (NewVersion 9).String ≠ "v1" ∧
      (Update ⟨versionField⟩ (sampleUpdate "first name" { String := "v1", Valid := true }) 9
        (sampleRow (.str "v1"))).stmt.ReflectValue "version" =
        some (.token { String := (NewVersion 9).String, Valid := true }) ∧
      ∀ r : Version,
        r.Scan ((Update ⟨versionField⟩
          (sampleUpdate "first name" { String := "v1", Valid := true }) 9
          (sampleRow (.str "v1"))).row "version") =
        (none, { String := (NewVersion 9).String, Valid := true }) :=
  C4_successful_update_restamps ⟨versionField⟩
    (sampleUpdate "first name" { String := "v1", Valid := true }) 9 (sampleRow (.str "v1"))
    { String := "v1", Valid := true } rfl rfl (by decide) rfl (by decide) (by decide)

/-- The `WHERE` expressions after the hook ran on a fresh, unbuilt statement of
a record holding the present token `v1`. -/
theorem VersionUpdateClause.ModifyStatement_whereExprs_present [GoRuntime] (v : VersionUpdateClause)
    (stmt : Statement) (k : KSUID) (v1 : String) (hsql : stmt.SQL = "")
    (hfresh : stmt.Clauses "concurrency_query" = none)
    (hrec : stmt.ReflectValue v.Field.DBName = some (.token { String := v1, Valid := true })) :
    (v.ModifyStatement stmt k).whereExprs =
      stmt.whereExprs ++ [.Eq { Table := CurrentTable, Name := v.Field.DBName } (.str v1)] := by
  obtain ⟨_, f2, _⟩ := v.ModifyStatement_facts stmt k _ hsql hrec
  rw [Statement.whereExprs_congr f2, (v.guarded_whereExprs stmt _ hfresh hrec).1]
  simp

/-- C1 (a stale-token update is rejected): the row's version column holds `v1`
and callers A and B both hold the present token `v1`; their statements are
fresh and unbuilt, A's own `WHERE` expressions (if any) hold on the row, and the
token generated for A differs from `v1`. Then A's update matches the row
(`RowsAffected = 1`) and sets the row's version to the generated token; B's
update, prepared afterwards from the copy still holding `v1`, carries the
predicate `version = v1`, affects no row, and leaves the row - its version and
every other column - exactly as A wrote it. -/
theorem C1_stale_token_rejected [GoRuntime] (v : VersionUpdateClause) (stmtA stmtB : Statement)
    (kA kB : KSUID) (row : Row) (v1 : String)
    (hsqlA : stmtA.SQL = "") (hsqlB : stmtB.SQL = "")
    (hfreshA : stmtA.Clauses "concurrency_query" = none)
    (hfreshB : stmtB.Clauses "concurrency_query" = none)
    (hsetA : stmtA.Clauses "SET" = none) (hsetB : stmtB.Clauses "SET" = none)
    (herrA : stmtA.Error = [])
    (hrecA : stmtA.ReflectValue v.Field.DBName = some (.token { String := v1, Valid := true }))
    (hrecB : stmtB.ReflectValue v.Field.DBName = some (.token { String := v1, Valid := true }))
    (hrow : row v.Field.DBName = .str v1)
    (hwhereA : ∀ e ∈ stmtA.whereExprs, e.holds row = true)
    (hgen : (NewVersion kA).String ≠ v1) :
    (Update v stmtA kA row).RowsAffected = 1 ∧
      (Update v stmtA kA row).row v.Field.DBName = .str (NewVersion kA).String ∧
      Expression.Eq { Table := CurrentTable, Name := v.Field.DBName } (.str v1) ∈
        (Update v stmtB kB (Update v stmtA kA row).row).stmt.whereExprs ∧
      (Update v stmtB kB (Update v stmtA kA row).row).RowsAffected = 0 ∧
      (Update v stmtB kB (Update v stmtA kA row).row).row = (Update v stmtA kA row).row := by
  have hwA := v.ModifyStatement_whereExprs_present stmtA kA v1 hsqlA hfreshA hrecA
  have hwB := v.ModifyStatement_whereExprs_present stmtB kB v1 hsqlB hfreshB hrecB
  obtain ⟨_, _, _, _, a5, _⟩ := v.ModifyStatement_facts stmtA kA _ hsqlA hrecA
  have hallA : ((v.ModifyStatement stmtA kA).whereExprs.all fun e => e.holds row) = true := by
    rw [hwA, List.all_append]
    simp only [Bool.and_eq_true, List.all_eq_true]
    refine ⟨hwhereA, ?_⟩
    intro e he
    simp only [List.mem_singleton] at he
    subst he
    simp [Expression.holds, hrow]
  have hA1 : (Update v stmtA kA row).RowsAffected = 1 := by
    rw [Update_eq v stmtA kA row _ hsqlA hsetA hrecA]
    simp [herrA, execUpdate, hallA]
  have hA2 : (Update v stmtA kA row).row v.Field.DBName = .str (NewVersion kA).String := by
    rw [Update_eq v stmtA kA row _ hsqlA hsetA hrecA]
    simp only [herrA, if_true]
    unfold execUpdate
    rw [if_pos hallA]
    show (((ConvertToAssignments (v.ModifyStatement stmtA kA)).1 v.Field.DBName).getD _) = _
    have a5' : (ConvertToAssignments (v.ModifyStatement stmtA kA)).1 v.Field.DBName =
        some (.str (NewVersion kA).String) := a5
    rw [a5']
    rfl
  have hwB2 : (ConvertToAssignments (v.ModifyStatement stmtB kB)).2.whereExprs =
      (v.ModifyStatement stmtB kB).whereExprs :=
    Statement.whereExprs_congr (ConvertToAssignments_fields _).1
  have hallB : ((v.ModifyStatement stmtB kB).whereExprs.all
      fun e => e.holds (Update v stmtA kA row).row) = false := by
    rw [hwB, List.all_append]
    have : (DriverValue.str (NewVersion kA).String = DriverValue.str v1) = False := by
      simp [hgen]
    simp [Expression.holds, hA2, this]
  refine ⟨hA1, hA2, ?_, ?_, ?_⟩
  · rw [Update_eq v stmtB kB _ _ hsqlB hsetB hrecB]
    split <;> simp [hwB2, hwB]
  · rw [Update_eq v stmtB kB _ _ hsqlB hsetB hrecB]
    split
    · simp [execUpdate, hallB]
    · rfl
  · rw [Update_eq v stmtB kB _ _ hsqlB hsetB hrecB]
    split
    · simp [execUpdate, hallB]
    · rfl

/-- C1 at the scenario of `TestConcurrency`: A writes `first name`, B then tries
`second time` with the token both had read. -/
theorem C1_stale_token_rejected_witness :
    (Update ⟨versionField⟩ (sampleUpdate "first name" { String := "v1", Valid := true }) 1
        (sampleRow (.str "v1"))).RowsAffected = 1 ∧
      (Update ⟨versionField⟩ (sampleUpdate "first name" { String := "v1", Valid := true }) 1
        (sampleRow (.str "v1"))).row "version" = .str (NewVersion 1).String ∧
      Expression.Eq { Table := CurrentTable, Name := "version" } (.str "v1") ∈
        (Update ⟨versionField⟩ (sampleUpdate "second time" { String := "v1", Valid := true }) 2
          (Update ⟨versionField⟩ (sampleUpdate "first name" { String := "v1", Valid := true }) 1
            (sampleRow (.str "v1"))).row).stmt.whereExprs ∧
      (Update ⟨versionField⟩ (sampleUpdate "second time" { String := "v1", Valid := true }) 2
        (Update ⟨versionField⟩ (sampleUpdate "first name" { String := "v1", Valid := true }) 1
          (sampleRow (.str "v1"))).row).RowsAffected = 0 ∧
      (Update ⟨versionField⟩ (sampleUpdate "second time" { String := "v1", Valid := true }) 2
        (Update ⟨versionField⟩ (sampleUpdate "first name" { String := "v1", Valid := true }) 1
          (sampleRow (.str "v1"))).row).row =
        (Update ⟨versionField⟩ (sampleUpdate "first name" { String := "v1", Valid := true }) 1
          (sampleRow (.str "v1"))).row :=
  C1_stale_token_rejected ⟨versionField⟩
    (sampleUpdate "first name" { String := "v1", Valid := true })
    (sampleUpdate "second time" { String := "v1", Valid := true }) 1 2 (sampleRow (.str "v1"))
    "v1" rfl rfl rfl rfl rfl rfl rfl (by decide) (by decide) (by decide) (by decide) (by decide)

/-! ## Theorems: JSON

The scanner and `unquoteBytes` are compared with the description of string
literals in the section on RFC 8259: what the scanner accepts as a string is
such a literal, every such literal is accepted, and unquoting yields the
string the literal denotes. -/

theorem Accepts_cons (s : Scanner) (c : Char) (l : List Char) :
    Accepts s (c :: l) ↔ (s.run c).1 ≠ .scanError ∧ Accepts (s.run c).2 l := by
  unfold Accepts
  simp only [scanAll]
  by_cases h : (s.run c).1 = .scanError <;> simp [h]

theorem run_inString (ps : List ParseState) (e : Bool) (c : Char) :
    Scanner.run ⟨.stateInString, false, ps, e⟩ c =
      if c = '"' then (.scanContinue, ⟨.stateEndValue, false, ps, e⟩)
      else if c = '\\' then (.scanContinue, ⟨.stateInStringEsc, false, ps, e⟩)
      else if c.toNat < 0x20 then (.scanError, ⟨.stateError, false, ps, true⟩)
      else (.scanContinue, ⟨.stateInString, false, ps, e⟩) := by
  simp only [Scanner.run, stateInString, Scanner.error]

theorem run_inStringEsc (ps : List ParseState) (e : Bool) (c : Char) :
    Scanner.run ⟨.stateInStringEsc, false, ps, e⟩ c =
      if (c = 'b' || c = 'f' || c = 'n' || c = 'r' || c = 't' || c = '\\' || c = '/' || c = '"')
          = true then
        (.scanContinue, ⟨.stateInString, false, ps, e⟩)
      else if c = 'u' then (.scanContinue, ⟨.stateInStringEscU, false, ps, e⟩)
      else (.scanError, ⟨.stateError, false, ps, true⟩) := by
  simp only [Scanner.run, stateInStringEsc, Scanner.error]

theorem not_Accepts_nil_string (st : ScanStep) (ps : List ParseState) (e : Bool)
    (hst : st = .stateInString ∨ st = .stateInStringEsc ∨ st = .stateInStringEscU ∨
      st = .stateInStringEscU1 ∨ st = .stateInStringEscU12 ∨ st = .stateInStringEscU123) :
    ¬ Accepts ⟨st, false, ps, e⟩ [] := by
  rintro ⟨s1, h1, h2⟩
  simp only [scanAll, Option.some.injEq] at h1
  subst h1
  rcases hst with rfl | rfl | rfl | rfl | rfl | rfl <;> cases e <;>
    simp [Scanner.eof, Scanner.run, stateInString, stateInStringEsc, stateInStringEscHex,
      Scanner.error, isHex, isDigit09] at h2

/-- One hexadecimal digit of a `\u` escape. -/
theorem Accepts_hex (st next : ScanStep) (ps : List ParseState) (e : Bool) (l : List Char)
    (hst : (st = .stateInStringEscU ∧ next = .stateInStringEscU1) ∨
      (st = .stateInStringEscU1 ∧ next = .stateInStringEscU12) ∨
      (st = .stateInStringEscU12 ∧ next = .stateInStringEscU123) ∨
      (st = .stateInStringEscU123 ∧ next = .stateInString))
    (h : Accepts ⟨st, false, ps, e⟩ l) :
    ∃ c tl, l = c :: tl ∧ isHex c = true ∧ Accepts ⟨next, false, ps, e⟩ tl := by
  cases l with
  | nil =>
    exfalso
    refine not_Accepts_nil_string st ps e ?_ h
    rcases hst with ⟨rfl, _⟩ | ⟨rfl, _⟩ | ⟨rfl, _⟩ | ⟨rfl, _⟩ <;> simp
  | cons c tl =>
    rw [Accepts_cons] at h
    have hrun : Scanner.run ⟨st, false, ps, e⟩ c =
        stateInStringEscHex next ⟨st, false, ps, e⟩ c := by
      rcases hst with ⟨rfl, rfl⟩ | ⟨rfl, rfl⟩ | ⟨rfl, rfl⟩ | ⟨rfl, rfl⟩ <;> rfl
    rw [hrun] at h
    unfold stateInStringEscHex at h
    by_cases hc : isHex c = true
    · simp only [hc, if_true] at h
      exact ⟨c, tl, rfl, hc, h.2⟩
    · simp [hc, Scanner.error] at h

theorem isHex_ne_quote (c : Char) (h : isHex c = true) : c ≠ '"' ∧ c ≠ '\\' := by
  constructor <;> rintro rfl <;> simp [isHex, isDigit09] at h

theorem rescanString_quote (l : List Char) : rescanString ('"' :: l) = [] := by
  cases l <;> simp [rescanString]

theorem rescanString_plain (c : Char) (l : List Char) (h1 : c ≠ '"') (h2 : c ≠ '\\') :
    rescanString (c :: l) = c :: rescanString l := by
  cases l <;> simp [rescanString, h1, h2]

theorem rescanString_esc (e : Char) (l : List Char) :
    rescanString ('\\' :: e :: l) = '\\' :: e :: rescanString l := by
  simp [rescanString]

theorem getu4_head (c0 c1 : Char) (t : List Char) (r : Nat)
    (h : getu4 (c0 :: c1 :: t) = some r) : c0 = '\\' ∧ c1 = 'u' := by
  match t, h with
  | h1 :: h2 :: h3 :: h4 :: _, h =>
    simp only [getu4] at h
    by_cases hc : (c0 = '\\' && c1 = 'u') = true
    · simpa using hc
    · simp [hc] at h
  | [], h => simp [getu4] at h
  | [_], h => simp [getu4] at h
  | [_, _], h => simp [getu4] at h
  | [_, _, _], h => simp [getu4] at h

theorem decodeRune_none (r : Nat) : decodeRune r none = replacementChar := rfl

theorem unquoteLoop_nil (fuel : Nat) : unquoteLoop fuel [] = some [] := by
  cases fuel <;> rfl

theorem unquoteLoop_plain (fuel : Nat) (c : Char) (t : List Char) (hq : c ≠ '"')
    (hbs : c ≠ '\\') (hctl : ¬ c.toNat < 0x20) :
    unquoteLoop (fuel + 1) (c :: t) = (unquoteLoop fuel t).map (c :: ·) := by
  rw [unquoteLoop]
  simp [unquoteStep, hq, hbs, hctl]

theorem unquoteLoop_uni (fuel : Nat) (h1 h2 h3 h4 : Char) (t : List Char) (rr : Nat)
    (hrr : getu4 ('\\' :: 'u' :: h1 :: h2 :: h3 :: h4 :: t) = some rr) :
    unquoteLoop (fuel + 1) ('\\' :: 'u' :: h1 :: h2 :: h3 :: h4 :: t) =
      if isSurrogate rr = true then
        if decodeRune rr (getu4 t) ≠ replacementChar then
          (unquoteLoop fuel (t.drop 6)).map (Char.ofNat (decodeRune rr (getu4 t)) :: ·)
        else (unquoteLoop fuel t).map (Char.ofNat replacementChar :: ·)
      else (unquoteLoop fuel t).map (Char.ofNat rr :: ·) := by
  rw [unquoteLoop, unquoteStep]
  simp [hrr]

theorem scanAll_reset_dropWhile (data : List Char) :
    scanAll Scanner.reset data = scanAll Scanner.reset (data.dropWhile isSpace) := by
  induction data with
  | nil => rfl
  | cons c cs ih =>
    by_cases hc : isSpace c = true
    · have hrun : Scanner.reset.run c = (.scanSkipSpace, Scanner.reset) := by
        simp [Scanner.run, Scanner.reset, stateBeginValue, hc]
      rw [List.dropWhile_cons_of_pos hc, ← ih]
      simp [scanAll, hrun]
    · rw [List.dropWhile_cons_of_neg hc]

theorem lookup_cons_eq {α : Type} (k : Char) (b : α) (es : List (Char × α)) (a : Char) :
    ((k, b) :: es).lookup a = if a = k then some b else es.lookup a := by
  rw [List.lookup_cons]
  by_cases h : a = k
  · simp [h]
  · have hb : (a == k) = false := by simpa using h
    simp [hb, h]

theorem mem_of_lookup {α : Type} (l : List (Char × α)) (a : Char) (b : α)
    (h : l.lookup a = some b) : (a, b) ∈ l := by
  induction l with
  | nil => simp at h
  | cons p es ih =>
    obtain ⟨k, x⟩ := p
    rw [lookup_cons_eq] at h
    by_cases hk : a = k
    · rw [if_pos hk] at h
      simp only [Option.some.injEq] at h
      simp [hk, h]
    · rw [if_neg hk] at h
      exact List.mem_cons_of_mem _ (ih h)

theorem specEscapes_simple (e c : Char) (h : specEscapes.lookup e = some c) :
    (e = 'b' || e = 'f' || e = 'n' || e = 'r' || e = 't' || e = '\\' || e = '/' ||
      e = '"') = true := by
  have hall : ∀ p ∈ specEscapes, (p.1 = 'b' || p.1 = 'f' || p.1 = 'n' || p.1 = 'r' ||
      p.1 = 't' || p.1 = '\\' || p.1 = '/' || p.1 = '"') = true := by decide
  exact hall _ (mem_of_lookup _ _ _ h)

theorem specHexDigits_hexVal (h : Char) (a : Nat) (hl : specHexDigits.lookup h = some a) :
    hexVal h = some a ∧ isHex h = true := by
  have hall : ∀ p ∈ specHexDigits, hexVal p.1 = some p.2 ∧ isHex p.1 = true := by decide
  exact hall _ (mem_of_lookup _ _ _ hl)

theorem char_eq_of_toNat (c : Char) (n : Nat) (h : c.toNat = n) : c = Char.ofNat n := by
  rw [← h, Char.ofNat_toNat]

theorem isHex_specHexDigits (h : Char) (hh : isHex h = true) :
    (specHexDigits.lookup h).isSome = true := by
  simp only [isHex, isDigit09, Bool.or_eq_true, Bool.and_eq_true, decide_eq_true_eq] at hh
  have e1 : '0'.toNat = 48 := by decide
  have e2 : '9'.toNat = 57 := by decide
  have e3 : 'a'.toNat = 97 := by decide
  have e4 : 'f'.toNat = 102 := by decide
  have e5 : 'A'.toNat = 65 := by decide
  have e6 : 'F'.toNat = 70 := by decide
  rw [e1, e2, e3, e4, e5, e6] at hh
  generalize hn : h.toNat = n at hh
  have hc := char_eq_of_toNat h n hn
  subst hc
  rcases hh with (⟨h1, h2⟩ | ⟨h1, h2⟩) | ⟨h1, h2⟩ <;> interval_cases n <;> decide

theorem simple_specEscapes (e : Char)
    (h : (e = 'b' || e = 'f' || e = 'n' || e = 'r' || e = 't' || e = '\\' || e = '/' ||
      e = '"') = true) : (specEscapes.lookup e).isSome = true := by
  simp only [Bool.or_eq_true, decide_eq_true_eq] at h
  rcases h with ((((((rfl | rfl) | rfl) | rfl) | rfl) | rfl) | rfl) | rfl <;> decide

theorem mem_specWhitespace (c : Char) : c ∈ specWhitespace ↔ isSpace c = true := by
  simp only [specWhitespace, List.mem_cons, List.mem_singleton, List.not_mem_nil, or_false,
    isSpace, Bool.or_eq_true, decide_eq_true_eq]
  tauto

theorem not_Accepts_error (et : Bool) (ps : List ParseState) (l : List Char) :
    ¬ Accepts ⟨.stateError, et, ps, true⟩ l := by
  rintro ⟨s1, h1, h2⟩
  cases l with
  | nil =>
    simp only [scanAll, Option.some.injEq] at h1
    subst h1
    simp [Scanner.eof] at h2
  | cons c r => simp [scanAll, Scanner.run] at h1

theorem run_endTop (e : Bool) (c : Char) :
    Scanner.run ⟨.stateEndTop, true, [], e⟩ c =
      if isSpace c = true then (.scanEnd, ⟨.stateEndTop, true, [], e⟩)
      else (.scanEnd, ⟨.stateError, true, [], true⟩) := by
  by_cases h : isSpace c = true <;> simp [Scanner.run, stateEndTop, Scanner.error, h]

theorem run_endValue_top (e : Bool) (c : Char) :
    Scanner.run ⟨.stateEndValue, false, [], e⟩ c =
      if isSpace c = true then (.scanEnd, ⟨.stateEndTop, true, [], e⟩)
      else (.scanEnd, ⟨.stateError, true, [], true⟩) := by
  by_cases h : isSpace c = true <;>
    simp [Scanner.run, stateEndValue, stateEndTop, Scanner.error, h]

/-- After the top-level value only white space is accepted. -/
theorem allSpace_of_Accepts_endTop (e : Bool) (l : List Char)
    (h : Accepts ⟨.stateEndTop, true, [], e⟩ l) : ∀ c ∈ l, isSpace c = true := by
  induction l with
  | nil => simp
  | cons c r ih =>
    rw [Accepts_cons, run_endTop] at h
    by_cases hc : isSpace c = true
    · simp only [hc, if_true] at h
      intro x hx
      rcases List.mem_cons.mp hx with rfl | hx
      · exact hc
      · exact ih h.2 x hx
    · simp only [hc] at h
      exact absurd h.2 (not_Accepts_error _ _ _)

theorem allSpace_of_Accepts_endValue (e : Bool) (l : List Char)
    (h : Accepts ⟨.stateEndValue, false, [], e⟩ l) : ∀ c ∈ l, isSpace c = true := by
  cases l with
  | nil => simp
  | cons c r =>
    rw [Accepts_cons, run_endValue_top] at h
    by_cases hc : isSpace c = true
    · simp only [hc, if_true] at h
      intro x hx
      rcases List.mem_cons.mp hx with rfl | hx
      · exact hc
      · exact allSpace_of_Accepts_endTop e r h.2 x hx
    · simp only [hc] at h
      exact absurd h.2 (not_Accepts_error _ _ _)

theorem scanAll_endTop_spaces (l : List Char) (h : ∀ c ∈ l, isSpace c = true) :
    scanAll ⟨.stateEndTop, true, [], false⟩ l = some ⟨.stateEndTop, true, [], false⟩ := by
  induction l with
  | nil => rfl
  | cons c r ih =>
    have hc := h c (List.mem_cons_self _ _)
    simp only [scanAll, run_endTop, hc, if_true]
    exact ih (fun x hx => h x (List.mem_cons_of_mem _ hx))

theorem Accepts_endValue_spaces (l : List Char) (h : ∀ c ∈ l, isSpace c = true) :
    Accepts ⟨.stateEndValue, false, [], false⟩ l := by
  cases l with
  | nil => exact ⟨_, rfl, by decide⟩
  | cons c r =>
    have hc := h c (List.mem_cons_self _ _)
    refine ⟨⟨.stateEndTop, true, [], false⟩, ?_, by decide⟩
    simp only [scanAll, run_endValue_top, hc, if_true]
    exact scanAll_endTop_spaces r (fun x hx => h x (List.mem_cons_of_mem _ hx))

/-- A string literal the scanner accepts at top level: its content is
well-formed, it ends in a quote, and only white space follows. -/
theorem SpecContent_of_Accepts (n : Nat) :
    ∀ (rest : List Char) (e : Bool), rest.length ≤ n →
      Accepts ⟨.stateInString, false, [], e⟩ rest →
      ∃ its ws', SpecContent (rescanString rest) its ∧
        rest = rescanString rest ++ ('"' :: ws') ∧ ∀ c ∈ ws', isSpace c = true := by
  induction n with
  | zero =>
    intro rest e hlen h
    have : rest = [] := List.length_eq_zero.mp (Nat.le_zero.mp hlen)
    subst this
    exact absurd h (not_Accepts_nil_string _ [] e (Or.inl rfl))
  | succ n ih =>
    intro rest e hlen h
    cases rest with
    | nil => exact absurd h (not_Accepts_nil_string _ [] e (Or.inl rfl))
    | cons c l =>
      have hl : l.length ≤ n := by simpa using hlen
      rw [Accepts_cons, run_inString] at h
      by_cases hq : c = '"'
      · subst hq
        simp only [if_true] at h
        rw [rescanString_quote]
        exact ⟨[], l, SpecContent.nil, rfl, allSpace_of_Accepts_endValue e l h.2⟩
      by_cases hb : c = '\\'
      · subst hb
        simp only [hq, if_false, if_true] at h
        cases l with
        | nil => exact absurd h.2 (not_Accepts_nil_string _ [] e (Or.inr (Or.inl rfl)))
        | cons e1 l1 =>
          have hl1 : l1.length ≤ n := by
            simp only [List.length_cons] at hl
            omega
          have h2 := h.2
          rw [Accepts_cons, run_inStringEsc] at h2
          by_cases hs : (e1 = 'b' || e1 = 'f' || e1 = 'n' || e1 = 'r' || e1 = 't' ||
              e1 = '\\' || e1 = '/' || e1 = '"') = true
          · simp only [hs, if_true] at h2
            obtain ⟨its, ws', i1, i2, i3⟩ := ih l1 e hl1 h2.2
            obtain ⟨c1, hc1⟩ := Option.isSome_iff_exists.mp (simple_specEscapes e1 hs)
            rw [rescanString_esc]
            refine ⟨.char c1 :: its, ws', SpecContent.esc e1 c1 _ its hc1 i1, ?_, i3⟩
            simp only [List.cons_append, List.cons.injEq, true_and]
            exact i2
          · simp only [hs, if_false] at h2
            by_cases hu : e1 = 'u'
            · subst hu
              simp only [if_true] at h2
              obtain ⟨a1, t1, rfl, x1, acc1⟩ :=
                Accepts_hex _ _ [] e l1 (Or.inl ⟨rfl, rfl⟩) h2.2
              obtain ⟨a2, t2, rfl, x2, acc2⟩ :=
                Accepts_hex _ _ [] e t1 (Or.inr (Or.inl ⟨rfl, rfl⟩)) acc1
              obtain ⟨a3, t3, rfl, x3, acc3⟩ :=
                Accepts_hex _ _ [] e t2 (Or.inr (Or.inr (Or.inl ⟨rfl, rfl⟩))) acc2
              obtain ⟨a4, t4, rfl, x4, acc4⟩ :=
                Accepts_hex _ _ [] e t3 (Or.inr (Or.inr (Or.inr ⟨rfl, rfl⟩))) acc3
              have hl4 : t4.length ≤ n := by
                simp only [List.length_cons] at hl1
                omega
              obtain ⟨its, ws', i1, i2, i3⟩ := ih t4 e hl4 acc4
              obtain ⟨d1, hd1⟩ := Option.isSome_iff_exists.mp (isHex_specHexDigits a1 x1)
              obtain ⟨d2, hd2⟩ := Option.isSome_iff_exists.mp (isHex_specHexDigits a2 x2)
              obtain ⟨d3, hd3⟩ := Option.isSome_iff_exists.mp (isHex_specHexDigits a3 x3)
              obtain ⟨d4, hd4⟩ := Option.isSome_iff_exists.mp (isHex_specHexDigits a4 x4)
              rw [rescanString_esc,
                rescanString_plain a1 _ (isHex_ne_quote a1 x1).1 (isHex_ne_quote a1 x1).2,
                rescanString_plain a2 _ (isHex_ne_quote a2 x2).1 (isHex_ne_quote a2 x2).2,
                rescanString_plain a3 _ (isHex_ne_quote a3 x3).1 (isHex_ne_quote a3 x3).2,
                rescanString_plain a4 _ (isHex_ne_quote a4 x4).1 (isHex_ne_quote a4 x4).2]
              refine ⟨_, ws', SpecContent.uni a1 a2 a3 a4 d1 d2 d3 d4 _ its hd1 hd2 hd3 hd4 i1,
                ?_, i3⟩
              simp only [List.cons_append, List.cons.injEq, true_and]
              exact i2
            · simp [hu] at h2
      · simp only [hq, hb, if_false] at h
        by_cases hctl : c.toNat < 0x20
        · simp [hctl] at h
        · simp only [hctl, if_false] at h
          obtain ⟨its, ws', i1, i2, i3⟩ := ih l e hl h.2
          rw [rescanString_plain c l hq hb]
          refine ⟨.char c :: its, ws', SpecContent.plain c _ its hq hb (by omega) i1, ?_, i3⟩
          simp only [List.cons_append, List.cons.injEq, true_and]
          exact i2

theorem unquoteLoop_esc_spec (fuel : Nat) (e c : Char) (t : List Char)
    (h : specEscapes.lookup e = some c) :
    unquoteLoop (fuel + 1) ('\\' :: e :: t) = (unquoteLoop fuel t).map (c :: ·) := by
  have hm := mem_of_lookup _ _ _ h
  simp only [specEscapes, List.mem_cons, Prod.mk.injEq, List.mem_singleton, List.not_mem_nil,
    or_false] at hm
  rw [unquoteLoop]
  rcases hm with ⟨rfl, rfl⟩ | ⟨rfl, rfl⟩ | ⟨rfl, rfl⟩ | ⟨rfl, rfl⟩ | ⟨rfl, rfl⟩ | ⟨rfl, rfl⟩ |
    ⟨rfl, rfl⟩ | ⟨rfl, rfl⟩ <;> simp [unquoteStep]

theorem getu4_spec (h1 h2 h3 h4 : Char) (a b c d : Nat) (t : List Char)
    (x1 : specHexDigits.lookup h1 = some a) (x2 : specHexDigits.lookup h2 = some b)
    (x3 : specHexDigits.lookup h3 = some c) (x4 : specHexDigits.lookup h4 = some d) :
    getu4 ('\\' :: 'u' :: h1 :: h2 :: h3 :: h4 :: t) = some (a * 4096 + b * 256 + c * 16 + d) := by
  simp only [getu4, (specHexDigits_hexVal h1 a x1).1, (specHexDigits_hexVal h2 b x2).1,
    (specHexDigits_hexVal h3 c x3).1, (specHexDigits_hexVal h4 d x4).1]
  simp only [decide_True, Bool.and_self, if_true, Option.some.injEq]
  omega

theorem getu4_eq_none_of_head (c : Char) (t : List Char) (hc : c ≠ '\\') :
    getu4 (c :: t) = none := by
  cases hg : getu4 (c :: t) with
  | none => rfl
  | some r =>
    cases t with
    | nil => simp [getu4] at hg
    | cons c1 t1 => exact absurd (getu4_head c c1 t1 r hg).1 hc

/-- How a well-formed content starts, as `getu4` sees it: with a `\uXXXX` escape
spelling the first item, or with none. -/
theorem SpecContent_head (t : List Char) (its : List StringItem) (h : SpecContent t its) :
    (getu4 t = none ∧ (its = [] ∨ ∃ c r, its = .char c :: r)) ∨
      ∃ m r, its = .unit m :: r ∧ getu4 t = some m ∧ SpecContent (t.drop 6) r := by
  cases h with
  | nil => exact Or.inl ⟨rfl, Or.inl rfl⟩
  | plain c t1 its1 _ hb _ _ =>
    exact Or.inl ⟨getu4_eq_none_of_head c t1 hb, Or.inr ⟨c, its1, rfl⟩⟩
  | esc e c t1 its1 he _ =>
    refine Or.inl ⟨?_, Or.inr ⟨c, its1, rfl⟩⟩
    cases hg : getu4 ('\\' :: e :: t1) with
    | none => rfl
    | some r =>
      have := (getu4_head _ e t1 r hg).2
      subst this
      have hn : specEscapes.lookup 'u' = none := by decide
      rw [hn] at he
      exact absurd he (by simp)
  | uni h1 h2 h3 h4 a b c d t1 its1 x1 x2 x3 x4 ht =>
    exact Or.inr ⟨_, its1, rfl, getu4_spec h1 h2 h3 h4 a b c d t1 x1 x2 x3 x4, by simpa using ht⟩

theorem isSurrogate_spec (n : Nat) : isSurrogate n = (specIsHigh n || specIsLow n) := by
  simp only [isSurrogate, specIsHigh, specIsLow]
  rw [Bool.eq_iff_iff]
  simp only [Bool.and_eq_true, Bool.or_eq_true, decide_eq_true_eq]
  omega

theorem decodeRune_pair (n m : Nat) (h : (specIsHigh n && specIsLow m) = true) :
    decodeRune n (some m) = 0x10000 + (n - 0xD800) * 0x400 + (m - 0xDC00) ∧
      decodeRune n (some m) ≠ replacementChar := by
  simp only [specIsHigh, specIsLow, Bool.and_eq_true, decide_eq_true_eq] at h
  have hc : (decide (0xd800 ≤ n) && decide (n < 0xdc00) && decide (0xdc00 ≤ m) &&
      decide (m < 0xe000)) = true := by
    simp only [Bool.and_eq_true, decide_eq_true_eq]
    omega
  simp only [decodeRune, hc, if_true, replacementChar]
  omega

theorem decodeRune_not_pair (n m : Nat) (h : ¬ (specIsHigh n && specIsLow m) = true) :
    decodeRune n (some m) = replacementChar := by
  simp only [specIsHigh, specIsLow, Bool.and_eq_true, decide_eq_true_eq] at h
  have hc : ¬ (decide (0xd800 ≤ n) && decide (n < 0xdc00) && decide (0xdc00 ≤ m) &&
      decide (m < 0xe000)) = true := by
    simp only [Bool.and_eq_true, decide_eq_true_eq]
    omega
  simp [decodeRune, hc]

theorem specDecodeItems_unit_single (a : Nat) (r : List StringItem)
    (hr : r = [] ∨ ∃ c r1, r = .char c :: r1) :
    specDecodeItems (.unit a :: r) = specSingle a :: specDecodeItems r := by
  rcases hr with rfl | ⟨c, r1, rfl⟩ <;> simp [specDecodeItems]

/-- The loop of `unquoteBytes` computes the string the content spells. -/
theorem unquoteLoop_spec (n : Nat) :
    ∀ (body : List Char) (its : List StringItem), body.length ≤ n → SpecContent body its →
      ∀ fuel, body.length ≤ fuel → unquoteLoop fuel body = some (specDecodeItems its) := by
  induction n with
  | zero =>
    intro body its hlen hb fuel _
    have : body = [] := List.length_eq_zero.mp (Nat.le_zero.mp hlen)
    subst this
    cases hb
    rw [unquoteLoop_nil]
    rfl
  | succ n ih =>
    intro body its hlen hb fuel hfuel
    cases hb with
    | nil =>
      rw [unquoteLoop_nil]
      rfl
    | plain c t its1 hq hbs hctl ht =>
      cases fuel with
      | zero => simp at hfuel
      | succ f =>
        simp only [List.length_cons] at hlen hfuel
        rw [unquoteLoop_plain f c t hq hbs (by omega), ih t its1 (by omega) ht f (by omega)]
        rfl
    | esc e c t its1 he ht =>
      cases fuel with
      | zero => simp at hfuel
      | succ f =>
        simp only [List.length_cons] at hlen hfuel
        rw [unquoteLoop_esc_spec f e c t he, ih t its1 (by omega) ht f (by omega)]
        rfl
    | uni h1 h2 h3 h4 a b c d t its1 x1 x2 x3 x4 ht =>
      cases fuel with
      | zero => simp at hfuel
      | succ f =>
        simp only [List.length_cons] at hlen hfuel
        have hrr := getu4_spec h1 h2 h3 h4 a b c d t x1 x2 x3 x4
        have i1 := ih t its1 (by omega) ht f (by omega)
        rw [unquoteLoop_uni f h1 h2 h3 h4 t _ hrr, isSurrogate_spec]
        generalize a * 4096 + b * 256 + c * 16 + d = u
        rcases SpecContent_head t its1 ht with ⟨hg, hits⟩ | ⟨m, r, rfl, hg, hdrop⟩
        · rw [hg, decodeRune_none, specDecodeItems_unit_single u its1 hits, i1]
          by_cases hs : (specIsHigh u || specIsLow u) = true
          · simp [hs, specSingle, replacementChar]
          · simp [hs, specSingle]
        · rw [hg]
          by_cases hp : (specIsHigh u && specIsLow m) = true
          · obtain ⟨hv, hne⟩ := decodeRune_pair u m hp
            have hhigh : specIsHigh u = true := by
              simp only [Bool.and_eq_true] at hp
              exact hp.1
            have hl6 : (t.drop 6).length ≤ t.length := by simp
            have hs : (specIsHigh u || specIsLow u) = true := by simp [hhigh]
            rw [if_pos hs, if_pos hne, ih (t.drop 6) r (by omega) hdrop f (by omega), hv]
            simp only [specDecodeItems, hp, if_true]
            rfl
          · have hv := decodeRune_not_pair u m hp
            rw [i1]
            by_cases hs : (specIsHigh u || specIsLow u) = true
            · simp [hs, hv, specDecodeItems, hp, specSingle, replacementChar]
            · simp [hs, specDecodeItems, hp, specSingle]

theorem scanAll_append (l1 l2 : List Char) :
    ∀ s : Scanner, scanAll s (l1 ++ l2) = (scanAll s l1).bind (fun s1 => scanAll s1 l2) := by
  induction l1 with
  | nil => intro s; rfl
  | cons c r ih =>
    intro s
    simp only [List.cons_append, scanAll]
    by_cases h : (s.run c).1 = .scanError
    · simp [h]
    · simp only [h, if_false]
      exact ih _

/-- The scanner passes over well-formed content and stays inside the string. -/
theorem scanAll_SpecContent (body : List Char) (its : List StringItem)
    (h : SpecContent body its) (e : Bool) :
    scanAll ⟨.stateInString, false, [], e⟩ body = some ⟨.stateInString, false, [], e⟩ := by
  induction h with
  | nil => rfl
  | plain c t its1 hq hb hctl _ ih =>
    have hn : ¬ c.toNat < 0x20 := by omega
    simp only [scanAll, run_inString, hq, hb, hn, if_false]
    exact ih
  | esc e1 c t its1 he _ ih =>
    have hs := specEscapes_simple e1 c he
    simp only [scanAll, run_inString, run_inStringEsc, hs, if_true,
      show ('\\' : Char) ≠ '"' by decide, if_false]
    exact ih
  | uni h1 h2 h3 h4 a b c d t its1 x1 x2 x3 x4 _ ih =>
    have y1 := (specHexDigits_hexVal h1 a x1).2
    have y2 := (specHexDigits_hexVal h2 b x2).2
    have y3 := (specHexDigits_hexVal h3 c x3).2
    have y4 := (specHexDigits_hexVal h4 d x4).2
    have r0 : Scanner.run ⟨.stateInString, false, [], e⟩ '\\' =
        (.scanContinue, ⟨.stateInStringEsc, false, [], e⟩) := by
      rw [run_inString]; simp
    have r1 : Scanner.run ⟨.stateInStringEsc, false, [], e⟩ 'u' =
        (.scanContinue, ⟨.stateInStringEscU, false, [], e⟩) := by
      rw [run_inStringEsc]; simp
    have r2 : Scanner.run ⟨.stateInStringEscU, false, [], e⟩ h1 =
        (.scanContinue, ⟨.stateInStringEscU1, false, [], e⟩) := by
      simp [Scanner.run, stateInStringEscHex, y1]
    have r3 : Scanner.run ⟨.stateInStringEscU1, false, [], e⟩ h2 =
        (.scanContinue, ⟨.stateInStringEscU12, false, [], e⟩) := by
      simp [Scanner.run, stateInStringEscHex, y2]
    have r4 : Scanner.run ⟨.stateInStringEscU12, false, [], e⟩ h3 =
        (.scanContinue, ⟨.stateInStringEscU123, false, [], e⟩) := by
      simp [Scanner.run, stateInStringEscHex, y3]
    have r5 : Scanner.run ⟨.stateInStringEscU123, false, [], e⟩ h4 =
        (.scanContinue, ⟨.stateInString, false, [], e⟩) := by
      simp [Scanner.run, stateInStringEscHex, y4]
    simp only [scanAll, r0, r1, r2, r3, r4, r5]
    exact ih

theorem rescanString_SpecContent (body : List Char) (its : List StringItem)
    (h : SpecContent body its) (ws : List Char) :
    rescanString (body ++ ('"' :: ws)) = body := by
  induction h with
  | nil => exact rescanString_quote ws
  | plain c t its1 hq hb _ _ ih =>
    rw [List.cons_append, rescanString_plain c _ hq hb, ih]
  | esc e1 c t its1 _ _ ih =>
    rw [List.cons_append, List.cons_append, rescanString_esc, ih]
  | uni h1 h2 h3 h4 a b c d t its1 x1 x2 x3 x4 _ ih =>
    have y1 := isHex_ne_quote h1 (specHexDigits_hexVal h1 a x1).2
    have y2 := isHex_ne_quote h2 (specHexDigits_hexVal h2 b x2).2
    have y3 := isHex_ne_quote h3 (specHexDigits_hexVal h3 c x3).2
    have y4 := isHex_ne_quote h4 (specHexDigits_hexVal h4 d x4).2
    simp only [List.cons_append]
    rw [rescanString_esc, rescanString_plain h1 _ y1.1 y1.2, rescanString_plain h2 _ y2.1 y2.2,
      rescanString_plain h3 _ y3.1 y3.2, rescanString_plain h4 _ y4.1 y4.2, ih]

theorem dropWhile_spaces (ws : List Char) (c : Char) (l : List Char)
    (hws : ∀ x ∈ ws, isSpace x = true) (hc : isSpace c = false) :
    (ws ++ (c :: l)).dropWhile isSpace = c :: l := by
  induction ws with
  | nil => simp [List.dropWhile, hc]
  | cons x r ih =>
    have hx := hws x (List.mem_cons_self _ _)
    rw [List.cons_append, List.dropWhile_cons_of_pos hx]
    exact ih (fun y hy => hws y (List.mem_cons_of_mem _ hy))

/-- A JSON string literal is valid for the scanner, and the decoder extracts
and unquotes it to the string it denotes. -/
theorem decode_SpecStringLiteral (data value : List Char) (h : SpecStringLiteral data value) :
    checkValid data = true ∧
      ∃ rest, data.dropWhile isSpace = '"' :: rest ∧
        unquoteBytes (rescanString rest) = some value := by
  obtain ⟨ws, body, its, ws', hdata, hws, hws', hbody, hval⟩ := h
  have hws1 : ∀ x ∈ ws, isSpace x = true := fun x hx => (mem_specWhitespace x).mp (hws x hx)
  have hws2 : ∀ x ∈ ws', isSpace x = true := fun x hx => (mem_specWhitespace x).mp (hws' x hx)
  have hdrop : data.dropWhile isSpace = '"' :: (body ++ ('"' :: ws')) := by
    rw [hdata]
    exact dropWhile_spaces ws '"' _ hws1 (by decide)
  refine ⟨?_, body ++ ('"' :: ws'), hdrop, ?_⟩
  · obtain ⟨s1, hs1, heof⟩ := Accepts_endValue_spaces ws' hws2
    have hrun : Scanner.reset.run '"' =
        (.scanBeginLiteral, ⟨.stateInString, false, [], false⟩) := by decide
    have hq : Scanner.run ⟨.stateInString, false, [], false⟩ '"' =
        (.scanContinue, ⟨.stateEndValue, false, [], false⟩) := by decide
    unfold checkValid
    rw [scanAll_reset_dropWhile, hdrop]
    simp only [scanAll, hrun]
    rw [scanAll_append, scanAll_SpecContent body its hbody false]
    simp only [Option.some_bind, scanAll, hq]
    simp [hs1, heof]
  · rw [rescanString_SpecContent body its hbody ws', hval]
    exact unquoteLoop_spec body.length body its (Nat.le_refl _) hbody _ (Nat.le_refl _)

/-- One letter of the literal `null` after its first. -/
theorem Accepts_null_letter (st next : ScanStep) (want : Char) (e : Bool) (l : List Char)
    (hst : (st = .stateN ∧ want = 'u' ∧ next = .stateNu) ∨
      (st = .stateNu ∧ want = 'l' ∧ next = .stateNul) ∨
      (st = .stateNul ∧ want = 'l' ∧ next = .stateEndValue))
    (h : Accepts ⟨st, false, [], e⟩ l) :
    ∃ tl, l = want :: tl ∧ Accepts ⟨next, false, [], e⟩ tl := by
  cases l with
  | nil =>
    exfalso
    obtain ⟨s1, h1, h2⟩ := h
    simp only [scanAll, Option.some.injEq] at h1
    subst h1
    rcases hst with ⟨rfl, _, _⟩ | ⟨rfl, _, _⟩ | ⟨rfl, _, _⟩ <;> cases e <;>
      simp [Scanner.eof, Scanner.run, stateLit, Scanner.error] at h2
  | cons c tl =>
    rw [Accepts_cons] at h
    have hrun : Scanner.run ⟨st, false, [], e⟩ c = stateLit want next ⟨st, false, [], e⟩ c := by
      rcases hst with ⟨rfl, rfl, rfl⟩ | ⟨rfl, rfl, rfl⟩ | ⟨rfl, rfl, rfl⟩ <;> rfl
    rw [hrun] at h
    unfold stateLit at h
    by_cases hc : c = want
    · simp only [hc, if_true] at h
      exact ⟨tl, by rw [hc], h.2⟩
    · simp [hc, Scanner.error] at h

/-- A valid JSON text that starts with `n` is `null` followed by white space. -/
theorem null_of_checkValid (data rest : List Char) (hv : checkValid data = true)
    (hd : data.dropWhile isSpace = 'n' :: rest) :
    ∃ ws', rest = 'u' :: 'l' :: 'l' :: ws' ∧ ∀ c ∈ ws', isSpace c = true := by
  have hacc : Accepts ⟨.stateN, false, [], false⟩ rest := by
    unfold checkValid at hv
    rw [scanAll_reset_dropWhile, hd] at hv
    have hrun : Scanner.reset.run 'n' = (.scanBeginLiteral, ⟨.stateN, false, [], false⟩) := by
      decide
    simp only [scanAll, hrun] at hv
    cases hs : scanAll ⟨.stateN, false, [], false⟩ rest with
    | none => simp [hs] at hv
    | some s1 =>
      simp only [hs] at hv
      exact ⟨s1, hs, by simpa using hv⟩
  obtain ⟨t1, rfl, a1⟩ := Accepts_null_letter _ _ _ false rest (Or.inl ⟨rfl, rfl, rfl⟩) hacc
  obtain ⟨t2, rfl, a2⟩ := Accepts_null_letter _ _ _ false t1 (Or.inr (Or.inl ⟨rfl, rfl, rfl⟩)) a1
  obtain ⟨t3, rfl, a3⟩ := Accepts_null_letter _ _ _ false t2 (Or.inr (Or.inr ⟨rfl, rfl, rfl⟩)) a2
  exact ⟨t3, rfl, allSpace_of_Accepts_endValue false t3 a3⟩

/-- A `null` with white space around it is valid for the scanner and starts,
after the white space, with `n`. -/
theorem decode_SpecPaddedNull (data : List Char) (h : SpecPaddedNull data) :
    checkValid data = true ∧ ∃ rest, data.dropWhile isSpace = 'n' :: rest := by
  obtain ⟨ws, ws', hdata, hws, hws', _⟩ := h
  have hws1 : ∀ x ∈ ws, isSpace x = true := fun x hx => (mem_specWhitespace x).mp (hws x hx)
  have hws2 : ∀ x ∈ ws', isSpace x = true := fun x hx => (mem_specWhitespace x).mp (hws' x hx)
  have hdrop : data.dropWhile isSpace = 'n' :: ('u' :: 'l' :: 'l' :: ws') := by
    rw [hdata]
    exact dropWhile_spaces ws 'n' _ hws1 (by decide)
  refine ⟨?_, _, hdrop⟩
  obtain ⟨s1, hs1, heof⟩ := Accepts_endValue_spaces ws' hws2
  have hnull : scanAll Scanner.reset ['n', 'u', 'l', 'l'] =
      some ⟨.stateEndValue, false, [], false⟩ := by decide
  unfold checkValid
  rw [scanAll_reset_dropWhile, hdrop,
    show 'n' :: 'u' :: 'l' :: 'l' :: ws' = ['n', 'u', 'l', 'l'] ++ ws' from rfl,
    scanAll_append, hnull]
  simp [hs1, heof]

theorem mem_quote_of_SpecStringLiteral (data value : List Char)
    (h : SpecStringLiteral data value) : '"' ∈ data := by
  obtain ⟨ws, body, its, ws', hdata, _⟩ := h
  rw [hdata]
  simp

theorem mem_n_of_SpecPaddedNull (data : List Char) (h : SpecPaddedNull data) :
    'n' ∈ data ∧ 4 < data.length := by
  obtain ⟨ws, ws', hdata, _, _, hne⟩ := h
  rw [hdata]
  refine ⟨by simp, ?_⟩
  simp only [List.length_append, List.length_cons, List.length_nil]
  rcases hne with hne | hne
  · have := List.length_pos.mpr hne
    omega
  · have := List.length_pos.mpr hne
    omega

/-- C8 (amended): for every receiver and every input `b`: the literal text
`null` succeeds and leaves the token absent; a JSON string literal succeeds
and leaves the token present with the string the literal denotes; a `null`
with white space around it succeeds and leaves the token present with the
string the receiver already held; every other input - a JSON number, boolean,
array or object, or text that is not well-formed JSON - returns an error and
leaves the receiver as it was, so the token is not made present by it. -/
theorem C8_unmarshal_json (v : Version) (b : GoString) :
    (b = "null" → v.UnmarshalJSON b = (none, { String := v.String, Valid := false })) ∧
    (∀ value, SpecStringLiteral b.data value →
      v.UnmarshalJSON b = (none, { String := String.mk value, Valid := true })) ∧
    (SpecPaddedNull b.data →
      v.UnmarshalJSON b = (none, { String := v.String, Valid := true })) ∧
    (b ≠ "null" → (¬ ∃ value, SpecStringLiteral b.data value) → ¬ SpecPaddedNull b.data →
      (v.UnmarshalJSON b).1 ≠ none ∧ (v.UnmarshalJSON b).2 = v) := by
  refine ⟨?_, ?_, ?_, ?_⟩
  · rintro rfl
    simp [Version.UnmarshalJSON]
  · intro value hlit
    have hne : b ≠ "null" := by
      rintro rfl
      exact absurd (mem_quote_of_SpecStringLiteral _ _ hlit) (by decide)
    obtain ⟨hv, rest, hd, hu⟩ := decode_SpecStringLiteral b.data value hlit
    simp [Version.UnmarshalJSON, hne, jsonUnmarshalString, hv, hd, hu]
  · intro hpad
    have hne : b ≠ "null" := by
      rintro rfl
      exact absurd (mem_n_of_SpecPaddedNull _ hpad).2 (by decide)
    obtain ⟨hv, rest, hd⟩ := decode_SpecPaddedNull b.data hpad
    simp [Version.UnmarshalJSON, hne, jsonUnmarshalString, hv, hd]
  · intro hne hnlit hnpad
    cases hv : checkValid b.data with
    | false => simp [Version.UnmarshalJSON, hne, jsonUnmarshalString, hv]
    | true =>
      cases hd : b.data.dropWhile isSpace with
      | nil => simp [Version.UnmarshalJSON, hne, jsonUnmarshalString, hv, hd]
      | cons c rest =>
        have hsplit : b.data = b.data.takeWhile isSpace ++ (c :: rest) := by
          rw [← hd, List.takeWhile_append_dropWhile]
        have htake : ∀ x ∈ b.data.takeWhile isSpace, x ∈ specWhitespace := fun x hx =>
          (mem_specWhitespace x).mpr (List.mem_takeWhile_imp hx)
        by_cases h1 : c = '"'
        · exfalso
          subst h1
          obtain ⟨its, ws', i1, i2, i3⟩ :=
            SpecContent_of_Accepts rest.length rest false (Nat.le_refl _) (by
              unfold checkValid at hv
              rw [scanAll_reset_dropWhile, hd] at hv
              have hrun : Scanner.reset.run '"' =
                  (.scanBeginLiteral, ⟨.stateInString, false, [], false⟩) := by decide
              simp only [scanAll, hrun] at hv
              cases hs : scanAll ⟨.stateInString, false, [], false⟩ rest with
              | none => simp [hs] at hv
              | some s1 =>
                simp only [hs] at hv
                exact ⟨s1, hs, by simpa using hv⟩)
          refine hnlit ⟨_, _, rescanString rest, its, ws', ?_, htake,
            fun x hx => (mem_specWhitespace x).mpr (i3 x hx), i1, rfl⟩
          rw [hsplit]
          congr 2
        by_cases h2 : c = 'n'
        · exfalso
          subst h2
          obtain ⟨ws', hrest, hsp⟩ := null_of_checkValid b.data rest hv hd
          subst hrest
          by_cases hpadded : b.data.takeWhile isSpace = [] ∧ ws' = []
          · apply hne
            apply String.ext
            rw [hsplit, hpadded.1, hpadded.2]
            rfl
          · refine hnpad ⟨_, ws', hsplit, htake,
              fun x hx => (mem_specWhitespace x).mpr (hsp x hx), ?_⟩
            by_contra hcon
            simp only [not_or, ne_eq, not_not] at hcon
            exact hpadded hcon
        by_cases h3 : c = '['
        · simp [Version.UnmarshalJSON, hne, jsonUnmarshalString, hv, hd, h3]
        by_cases h4 : c = '{'
        · simp [Version.UnmarshalJSON, hne, jsonUnmarshalString, hv, hd, h4]
        by_cases h5 : (c = 't' || c = 'f') = true
        · simp only [Bool.or_eq_true, decide_eq_true_eq] at h5
          rcases h5 with rfl | rfl <;>
            simp [Version.UnmarshalJSON, hne, jsonUnmarshalString, hv, hd]
        · simp only [Bool.or_eq_true, decide_eq_true_eq, not_or] at h5
          simp [Version.UnmarshalJSON, hne, jsonUnmarshalString, hv, hd, h1, h2, h3, h4, h5.1,
            h5.2]

/-- C8, as stated, fails: the input ` null` is not the literal text `null`, is
no string literal and is well-formed JSON, yet the call returns no error and
makes an absent token present, with the string the receiver held. -/
theorem C8_padded_null_counterexample :
    (" null" : GoString) ≠ "null" ∧
      Version.UnmarshalJSON { String := "old", Valid := false } " null" =
        (none, { String := "old", Valid := true }) := by
  decide

/-- C8 (amended) at the inputs `null`, `"abéc"`, a padded literal holding
a surrogate pair and an escape, `null` followed by a line feed, the number `12`
and the malformed `nul`. -/
theorem C8_unmarshal_json_witness :
    Version.UnmarshalJSON { String := "old", Valid := true } "null" =
        (none, { String := "old", Valid := false }) ∧
      Version.UnmarshalJSON { String := "old", Valid := false } "\"ab\\u00e9c\"" =
        (none, { String := "abéc", Valid := true }) ∧
      Version.UnmarshalJSON { String := "old", Valid := false } " \"\\ud83d\\ude00\\n\"" =
        (none, { String := "😀\n", Valid := true }) ∧
      Version.UnmarshalJSON { String := "old", Valid := false } "null\n" =
        (none, { String := "old", Valid := true }) ∧
      ((Version.UnmarshalJSON { String := "old", Valid := false } "12").1 ≠ none ∧
        (Version.UnmarshalJSON { String := "old", Valid := false } "12").2 =
          { String := "old", Valid := false }) ∧
      ((Version.UnmarshalJSON { String := "old", Valid := false } "nul").1 ≠ none ∧
        (Version.UnmarshalJSON { String := "old", Valid := false } "nul").2 =
          { String := "old", Valid := false }) :=
  ⟨(C8_unmarshal_json { String := "old", Valid := true } "null").1 rfl,
    (C8_unmarshal_json { String := "old", Valid := false } "\"ab\\u00e9c\"").2.1 "abéc".data
      ⟨[], "ab\\u00e9c".data, [.char 'a', .char 'b', .unit 233, .char 'c'], [], rfl,
        by simp, by simp,
        SpecContent.plain 'a' _ _ (by decide) (by decide) (by decide)
          (SpecContent.plain 'b' _ _ (by decide) (by decide) (by decide)
            (SpecContent.uni '0' '0' 'e' '9' 0 0 14 9 _ _ (by decide) (by decide) (by decide)
              (by decide)
              (SpecContent.plain 'c' _ _ (by decide) (by decide) (by decide) SpecContent.nil))),
        by decide⟩,
    (C8_unmarshal_json { String := "old", Valid := false } " \"\\ud83d\\ude00\\n\"").2.1
      "😀\n".data
      ⟨[' '], "\\ud83d\\ude00\\n".data, [.unit 0xD83D, .unit 0xDE00, .char '\n'], [], rfl,
        by decide, by simp,
        SpecContent.uni 'd' '8' '3' 'd' 13 8 3 13 _ _ (by decide) (by decide) (by decide)
          (by decide)
          (SpecContent.uni 'd' 'e' '0' '0' 13 14 0 0 _ _ (by decide) (by decide) (by decide)
            (by decide) (SpecContent.esc 'n' '\n' _ _ (by decide) SpecContent.nil)),
        by decide⟩,
    (C8_unmarshal_json { String := "old", Valid := false } "null\n").2.2.1
      ⟨[], ['\n'], rfl, by simp, by decide, Or.inr (by simp)⟩,
    (C8_unmarshal_json { String := "old", Valid := false } "12").2.2.2 (by decide)
      (fun h => h.elim fun _ hl => absurd (mem_quote_of_SpecStringLiteral _ _ hl) (by decide))
      (fun h => absurd (mem_n_of_SpecPaddedNull _ h).1 (by decide)),
    (C8_unmarshal_json { String := "old", Valid := false } "nul").2.2.2 (by decide)
      (fun h => h.elim fun _ hl => absurd (mem_quote_of_SpecStringLiteral _ _ hl) (by decide))
      (fun h => absurd (mem_n_of_SpecPaddedNull _ h).2 (by decide))⟩

end Concurrency
